import Mathlib

/-!
Shallow embedding of the WURFL Microservice golang client
(`scientiamobile/wmclient/wmclient.go`, `model.go`).

The network and JSON layers are external collaborators: every operation that
performs an HTTP round trip is embedded as a pure function taking the outcome
of that round trip (an `Except` value holding either the transport/decode
error message or the decoded payload) as an explicit argument.  Go `nil`
slices and maps are modelled as `Option` values, Go maps as association
lists with Go's insert-overwrites-lookup semantics, and the
`github.com/golang/groupcache/lru` cache as a most-recently-used-first list
of key/value pairs.  The MD5 digest used for header-fingerprint cache keys
is an external pure function and is threaded through as a parameter `md5`.
-/

set_option maxHeartbeats 1000000

namespace Wmclient

/-- `JSONDeviceData` from `model.go`: a device-detection response.
`Capabilities` is a Go `map[string]string`, modelled as an association list
(`none` for a Go nil map). -/
structure JSONDeviceData where
  APIVersion : String
  Capabilities : Option (List (String × String))
  Error : String
  Mtime : Int
  Ltime : String
deriving Repr, DecidableEq

/-- `JSONInfoData` from `model.go`: the `/v2/getinfo/json` payload. -/
structure JSONInfoData where
  WurflAPIVersion : String
  WurflInfo : String
  WmVersion : String
  ImportantHeaders : List String
  StaticCaps : List String
  VirtualCaps : List String
  Ltime : String
deriving Repr, DecidableEq

/-- `JSONMakeModel` from `model.go`. -/
structure JSONMakeModel where
  BrandName : String
  ModelName : String
  MarketingName : String
deriving Repr, DecidableEq

/-- `JSONModelMktName` from `model.go`. -/
structure JSONModelMktName where
  ModelName : String
  MarketingName : String
deriving Repr, DecidableEq

/-- `JSONDeviceOsVersions` from `model.go`. -/
structure JSONDeviceOsVersions where
  OsName : String
  OsVersion : String
deriving Repr, DecidableEq

/-! ### Go map model

A Go `map[string]V` that the client only ever writes and reads pointwise is
modelled as an association list where an insert shadows previous bindings. -/

/-- Lookup `m[k]` returning `none` when the key is absent (Go's `ok = false`). -/
def mapGet? {V : Type} (m : List (String × V)) (k : String) : Option V :=
  (m.find? (fun p => p.1 == k)).map (fun p => p.2)

/-- Lookup `m[k]` with a default (Go's zero-value read on a missing key). -/
def mapGetD {V : Type} (m : List (String × V)) (k : String) (d : V) : V :=
  (mapGet? m k).getD d

/-- Go map assignment `m[k] = v`: the new binding shadows any previous one. -/
def mapSet {V : Type} (m : List (String × V)) (k : String) (v : V) : List (String × V) :=
  (k, v) :: m.filter (fun p => !(p.1 == k))

/-! ### groupcache/lru model

`lru.Cache` holds entries most-recently-used first.  `Get` moves a hit to the
front; `Add` inserts or updates at the front and evicts the oldest entry when
a non-zero `MaxEntries` is exceeded. -/

/-- The `github.com/golang/groupcache/lru` cache used by the client. -/
structure Lru (V : Type) where
  maxEntries : Nat
  entries : List (String × V)
deriving Repr, DecidableEq

/-- `lru.New(maxEntries)`. -/
def lruNew (V : Type) (maxEntries : Nat) : Lru V := ⟨maxEntries, []⟩

/-- `lru.Cache.Len`. -/
def lruLen {V : Type} (cache : Lru V) : Nat := cache.entries.length

/-- `lru.Cache.Get`: on a hit, the entry moves to the front and its value is
returned; on a miss the cache is unchanged. -/
def lruGet {V : Type} (cache : Lru V) (key : String) : Option V × Lru V :=
  match cache.entries.find? (fun p => p.1 == key) with
  | some p =>
      (some p.2, { cache with entries := (key, p.2) :: cache.entries.eraseP (fun q => q.1 == key) })
  | none => (none, cache)

/-- `lru.Cache.Add`: update-and-move-to-front when the key is present,
otherwise push to the front and remove the oldest entry if a non-zero
`MaxEntries` is exceeded. -/
def lruAdd {V : Type} (cache : Lru V) (key : String) (value : V) : Lru V :=
  if (cache.entries.find? (fun p => p.1 == key)).isSome then
    { cache with entries := (key, value) :: cache.entries.eraseP (fun q => q.1 == key) }
  else
    let es := (key, value) :: cache.entries
    if cache.maxEntries ≠ 0 ∧ cache.maxEntries < es.length then
      { cache with entries := es.dropLast }
    else
      { cache with entries := es }

/-- `lru.Cache.Clear`. -/
def lruClear {V : Type} (cache : Lru V) : Lru V := { cache with entries := [] }

/-- Length of a possibly-nil (`Option`) cache, as read by `GetActualCacheSizes`. -/
def lruLenOpt {V : Type} : Option (Lru V) → Nat
  | none => 0
  | some cache => lruLen cache

/-! ### Client state (`WmClient` struct from `wmclient.go`)

HTTP plumbing fields (`httpClient`, timeouts) are omitted: they carry no
state any claim refers to.  Mutex fields guard concurrent access only and
have no sequential meaning. -/

/-- `userAgentHeader` constant from `wmclient.go`. -/
def userAgentHeader : String := "User-Agent"

/-- `deviceDefaultCacheSize` constant from `wmclient.go`. -/
def deviceDefaultCacheSize : Nat := 20000

/-- The `WmClient` struct: connection data, the capability registry
(`StaticCaps`/`VirtualCaps`), committed requested capabilities, the two LRU
caches and the three auxiliary tables. -/
structure WmClient where
  scheme : String
  host : String
  port : String
  baseURI : String
  StaticCaps : List String
  VirtualCaps : List String
  requestedStaticCaps : Option (List String)
  requestedVirtualCaps : Option (List String)
  ImportantHeaders : List String
  deviceCache : Option (Lru JSONDeviceData)
  userAgentCache : Option (Lru JSONDeviceData)
  mkModels : Option (List JSONMakeModel)
  deviceMakes : Option (List String)
  deviceMakesMap : Option (List (String × List JSONModelMktName))
  deviceOses : Option (List String)
  deviceOsVerMap : Option (List (String × List String))
  clientLtime : String
deriving Repr, DecidableEq

/-- Lexicographic comparison of character lists by code point; Go's `<` on
strings (byte-wise lexicographic, which agrees with code-point order under
UTF-8 encoding). -/
def charListLt : List Char → List Char → Bool
  | [], [] => false
  | [], _ :: _ => true
  | _ :: _, [] => false
  | a :: as, b :: bs =>
      decide (a.toNat < b.toNat) || (decide (a.toNat = b.toNat) && charListLt as bs)

/-- Go string comparison `a < b`. -/
def strLt (a b : String) : Bool := charListLt a.data b.data

/-- `sort.SearchStrings(slist, value)`: smallest index whose element is not
below `value` (binary search over a sorted slice; the result is the same as
this linear scan). -/
def searchStrings (slist : List String) (value : String) : Nat :=
  slist.findIdx (fun s => !(strLt s value))

/-- `sliceHasValue` from `wmclient.go`: binary-search membership probe. -/
def sliceHasValue (slist : List String) (value : String) : Bool :=
  match slist with
  | [] => false
  | _ =>
      let index := searchStrings slist value
      decide (index < slist.length) && value == slist.getD index ""

/-- `WmClient.HasStaticCapability`. -/
def HasStaticCapability (c : WmClient) (capName : String) : Bool :=
  sliceHasValue c.StaticCaps capName

/-- `WmClient.HasVirtualCapability`. -/
def HasVirtualCapability (c : WmClient) (capName : String) : Bool :=
  sliceHasValue c.VirtualCaps capName

/-- The per-cache step of `WmClient.clearCache`: a present, non-empty cache
is emptied (the source skips the `Clear` call on an already-empty cache). -/
def clearLru {V : Type} : Option (Lru V) → Option (Lru V)
  | some cache => if 0 < lruLen cache then some (lruClear cache) else some cache
  | none => none

/-- `WmClient.clearCache`: empty both LRU caches (when present and non-empty,
as the source checks) and drop the three auxiliary tables. -/
def clearCache (c : WmClient) : WmClient :=
  { c with userAgentCache := clearLru c.userAgentCache,
           deviceCache := clearLru c.deviceCache,
           mkModels := none, deviceMakes := none, deviceMakesMap := none,
           deviceOses := none, deviceOsVerMap := none }

/-- `WmClient.GetActualCacheSizes`: `(device cache size, header cache size)`. -/
def GetActualCacheSizes (c : WmClient) : Nat × Nat :=
  (lruLenOpt c.deviceCache, lruLenOpt c.userAgentCache)

/-- `WmClient.SetCacheSize`. -/
def SetCacheSize (c : WmClient) (uaMaxEntries : Nat) : WmClient :=
  { c with userAgentCache := some (lruNew JSONDeviceData uaMaxEntries),
           deviceCache := some (lruNew JSONDeviceData deviceDefaultCacheSize) }

/-- `WmClient.SetRequestedStaticCapabilities`; the `Option` argument models
the Go `nil` slice versus a concrete slice. -/
def SetRequestedStaticCapabilities (c : WmClient) (capsList : Option (List String)) : WmClient :=
  match capsList with
  | none => clearCache { c with requestedStaticCaps := none }
  | some l =>
      let capNames := l.filter (fun name => HasStaticCapability c name)
      if 0 < capNames.length then
        clearCache { c with requestedStaticCaps := some capNames }
      else c

/-- `WmClient.SetRequestedVirtualCapabilities`. -/
def SetRequestedVirtualCapabilities (c : WmClient) (capsList : Option (List String)) : WmClient :=
  match capsList with
  | none => clearCache { c with requestedVirtualCaps := none }
  | some l =>
      let vcapNames := l.filter (fun name => HasVirtualCapability c name)
      if 0 < vcapNames.length then
        clearCache { c with requestedVirtualCaps := some vcapNames }
      else c

/-- `WmClient.SetRequestedCapabilities`: splits the names between the static
and virtual sets and, for a non-`nil` argument, commits both filtered lists
and clears the caches unconditionally. -/
def SetRequestedCapabilities (c : WmClient) (capsList : Option (List String)) : WmClient :=
  match capsList with
  | none => clearCache { c with requestedStaticCaps := none, requestedVirtualCaps := none }
  | some l =>
      let capNames := l.filter (fun name => HasStaticCapability c name)
      let vcapNames := l.filter (fun name => !HasStaticCapability c name && HasVirtualCapability c name)
      clearCache { c with requestedStaticCaps := some capNames,
                          requestedVirtualCaps := some vcapNames }

/-- `WmClient.clearCachesIfNeeded`: on a non-empty load-time token different
from the stored one, store the new token and clear everything. -/
def clearCachesIfNeeded (c : WmClient) (ltime : String) : WmClient :=
  if 0 < ltime.length ∧ c.clientLtime ≠ ltime then
    clearCache { c with clientLtime := ltime }
  else c

/-- `WmClient.internalLookup`, given the outcome of the HTTP POST + JSON
decode (`Except.error` for a transport/decode failure, `Except.ok` for a
decoded `JSONDeviceData`).  A response embedding a non-empty `Error` string
is turned into a Go error while the partially populated data object is still
returned with its `Error` field blanked. -/
def internalLookup (net : Except String JSONDeviceData) :
    Option JSONDeviceData × Option String :=
  match net with
  | .error e => (none, some e)
  | .ok deviceData =>
      if 0 < deviceData.Error.length then
        (some { deviceData with Error := "" },
         some ("Received error from WM server: " ++ deviceData.Error))
      else
        (some deviceData, none)

/-! ### Header-fingerprint cache key (`getUserAgentCacheKey`) -/

/-- `WmClient.getUserAgentCacheKey`: concatenate the values of the important
headers, in the fixed important-header order (a missing header contributes
Go's zero value `""`), then digest.  `md5` stands for the external
`md5.Sum`/`hex.EncodeToString` composition. -/
def getUserAgentCacheKey (md5 : String → String) (importantHeaders : List String)
    (headers : List (String × String)) : String :=
  md5 (importantHeaders.foldl (fun key hname => key ++ mapGetD headers hname "") "")

/-- ASCII lowering of one character; Go's `strings.ToLower` restricted to
the ASCII range, which is the case mapping it performs on header names. -/
def charToLower (ch : Char) : Char :=
  if 65 ≤ ch.toNat ∧ ch.toNat ≤ 90 then Char.ofNat (ch.toNat + 32) else ch

/-- `strings.ToLower` on an (ASCII) header name. -/
def toLowerStr (s : String) : String := ⟨s.data.map charToLower⟩

/-- The `lowerKeyMap` built by `WmClient.LookupHeaders`: every incoming
header name lowercased, later entries shadowing earlier ones (Go map
assignment). -/
def lowerKeyMap (headers : List (String × String)) : List (String × String) :=
  headers.foldl (fun m kv => mapSet m (toLowerStr kv.1) kv.2) []

/-- The case-insensitive header read performed by `LookupHeaders`:
`lowerKeyMap[strings.ToLower(name)]` with Go's zero-value default. -/
def ciGet (headers : List (String × String)) (name : String) : String :=
  mapGetD (lowerKeyMap headers) (toLowerStr name) ""

/-- The header-normalization step of `WmClient.LookupHeaders`: lowercase every
incoming header name, then for each important header (in order) copy its
case-insensitively matched, non-empty value under the canonical name. -/
def lookupHeadersNorm (importantHeaders : List String) (headers : List (String × String)) :
    List (String × String) :=
  importantHeaders.foldl
    (fun jh name =>
      let h := ciGet headers name
      if h ≠ "" then mapSet jh name h else jh)
    []

/-- The header-fingerprint cache key derived by `LookupHeaders`:
normalization followed by `getUserAgentCacheKey`. -/
def headersCacheKey (md5 : String → String) (importantHeaders : List String)
    (headers : List (String × String)) : String :=
  getUserAgentCacheKey md5 importantHeaders (lookupHeadersNorm importantHeaders headers)

/-! ### Lookup operations

Each lookup returns `((data, error), new client state, network-used flag)`;
the `net` argument is the outcome of the HTTP POST + decode that the
operation performs if and only if the flag is `true`. -/

/-- The cache probe shared by the header-keyed lookups (`if
c.userAgentCache != nil { value, ok := c.userAgentCache.Get(key) ... }`). -/
def uaCacheProbe (c : WmClient) (key : String) : Option (JSONDeviceData × Lru JSONDeviceData) :=
  match c.userAgentCache with
  | some cache =>
      match lruGet cache key with
      | (some v, cache') => some (v, cache')
      | (none, _) => none
  | none => none

/-- The cache probe of `LookupDeviceID`. -/
def devCacheProbe (c : WmClient) (key : String) : Option (JSONDeviceData × Lru JSONDeviceData) :=
  match c.deviceCache with
  | some cache =>
      match lruGet cache key with
      | (some v, cache') => some (v, cache')
      | (none, _) => none
  | none => none

/-- The populate step of the header-keyed lookups (`if c.userAgentCache !=
nil { c.userAgentCache.Add(key, deviceData) }`). -/
def addToUaCache (c : WmClient) (key : String) (deviceData : JSONDeviceData) : WmClient :=
  match c.userAgentCache with
  | some cache => { c with userAgentCache := some (lruAdd cache key deviceData) }
  | none => c

/-- The populate step of `LookupDeviceID`. -/
def addToDeviceCache (c : WmClient) (key : String) (deviceData : JSONDeviceData) : WmClient :=
  match c.deviceCache with
  | some cache => { c with deviceCache := some (lruAdd cache key deviceData) }
  | none => c

/-- The lookup flow shared verbatim by `LookupUserAgent`, `LookupHeaders`
and `LookupRequest` in the source, with the header-fingerprint `key` already
computed: cache probe, then network lookup, then (on success) invalidation
check and cache populate. -/
def uaKeyedLookup (c : WmClient) (key : String) (net : Except String JSONDeviceData) :
    (Option JSONDeviceData × Option String) × WmClient × Bool :=
  match uaCacheProbe c key with
  | some (jdd, cache') => ((some jdd, none), { c with userAgentCache := some cache' }, false)
  | none =>
      match internalLookup net with
      | (deviceData, some e) => ((deviceData, some e), c, true)
      | (some deviceData, none) =>
          ((some deviceData, none),
           addToUaCache (clearCachesIfNeeded c deviceData.Ltime) key deviceData, true)
      | (none, none) => ((none, none), c, true)

/-- The same flow on the device-id cache, as in `LookupDeviceID`. -/
def devKeyedLookup (c : WmClient) (key : String) (net : Except String JSONDeviceData) :
    (Option JSONDeviceData × Option String) × WmClient × Bool :=
  match devCacheProbe c key with
  | some (jdd, cache') => ((some jdd, none), { c with deviceCache := some cache' }, false)
  | none =>
      match internalLookup net with
      | (deviceData, some e) => ((deviceData, some e), c, true)
      | (some deviceData, none) =>
          ((some deviceData, none),
           addToDeviceCache (clearCachesIfNeeded c deviceData.Ltime) key deviceData, true)
      | (none, none) => ((none, none), c, true)

/-- `WmClient.LookupUserAgent`. -/
def LookupUserAgent (md5 : String → String) (c : WmClient) (userAgent : String)
    (net : Except String JSONDeviceData) :
    (Option JSONDeviceData × Option String) × WmClient × Bool :=
  uaKeyedLookup c (getUserAgentCacheKey md5 c.ImportantHeaders [(userAgentHeader, userAgent)]) net

/-- `WmClient.LookupDeviceID`. -/
def LookupDeviceID (c : WmClient) (deviceID : String)
    (net : Except String JSONDeviceData) :
    (Option JSONDeviceData × Option String) × WmClient × Bool :=
  devKeyedLookup c deviceID net

/-- `WmClient.LookupHeaders`. -/
def LookupHeaders (md5 : String → String) (c : WmClient) (headers : List (String × String))
    (net : Except String JSONDeviceData) :
    (Option JSONDeviceData × Option String) × WmClient × Bool :=
  uaKeyedLookup c (headersCacheKey md5 c.ImportantHeaders headers) net

/-- A lookup request, abstracting over the three lookup entry points. -/
inductive LookupOp where
  | byUserAgent (userAgent : String)
  | byDeviceID (deviceID : String)
  | byHeaders (headers : List (String × String))
deriving Repr, DecidableEq

/-- Dispatch a `LookupOp` to the corresponding lookup operation. -/
def doLookup (md5 : String → String) (c : WmClient) (op : LookupOp)
    (net : Except String JSONDeviceData) :
    (Option JSONDeviceData × Option String) × WmClient × Bool :=
  match op with
  | .byUserAgent ua => LookupUserAgent md5 c ua net
  | .byDeviceID did => LookupDeviceID c did net
  | .byHeaders hs => LookupHeaders md5 c hs net

/-- The cache key a `LookupOp` is stored under. -/
def opKeyStr (md5 : String → String) (importantHeaders : List String) : LookupOp → String
  | .byUserAgent ua => getUserAgentCacheKey md5 importantHeaders [(userAgentHeader, ua)]
  | .byDeviceID did => did
  | .byHeaders hs => headersCacheKey md5 importantHeaders hs

/-- Which of the two caches a `LookupOp` uses (`true` = the header cache). -/
def usesUaCache : LookupOp → Bool
  | .byDeviceID _ => false
  | _ => true

/-- The cached value a `LookupOp` would hit in the given state, if any. -/
def cacheProbe (md5 : String → String) (c : WmClient) (op : LookupOp) : Option JSONDeviceData :=
  if usesUaCache op then
    (uaCacheProbe c (opKeyStr md5 c.ImportantHeaders op)).map (fun p => p.1)
  else
    (devCacheProbe c (opKeyStr md5 c.ImportantHeaders op)).map (fun p => p.1)

/-! ### Auxiliary tables (`loadDeviceOsesData`, `loadDeviceMakesData`
and their accessors) -/

/-- `WmClient.loadDeviceOsesData`: no-op when a non-empty table is in memory;
otherwise fetch (`fetch` is the `/v2/alldeviceosversions/json` outcome) and
fold the raw entries into a first-seen-ordered OS-name list and an
OS-name → versions map. -/
def loadDeviceOsesData (c : WmClient) (fetch : Except String (List JSONDeviceOsVersions)) :
    WmClient × Option String :=
  if 0 < (c.deviceOses.getD []).length then (c, none)
  else
    match fetch with
    | .error e => (c, some e)
    | .ok osVersionModels =>
        let acc := osVersionModels.foldl
          (fun (acc : List (String × List String) × List String) ovModel =>
            let ovMap := acc.1
            let ov := acc.2
            let ov := if (mapGet? ovMap ovModel.OsName).isSome then ov else ov ++ [ovModel.OsName]
            (mapSet ovMap ovModel.OsName ((mapGetD ovMap ovModel.OsName []) ++ [ovModel.OsVersion]), ov))
          ([], [])
        ({ c with deviceOsVerMap := some acc.1, deviceOses := some acc.2 }, none)

/-- `WmClient.GetAllOSes`. -/
def GetAllOSes (c : WmClient) (fetch : Except String (List JSONDeviceOsVersions)) :
    (Option (List String) × Option String) × WmClient :=
  let loaded := loadDeviceOsesData c fetch
  let c := loaded.1
  if loaded.2.isSome ∧ 0 < (c.deviceOses.getD []).length then ((none, loaded.2), c)
  else ((c.deviceOses, none), c)

/-- `WmClient.GetAllVersionsForOS`: empty-string versions are filtered out of
the returned list; an unknown OS name is a not-found error. -/
def GetAllVersionsForOS (c : WmClient) (osName : String)
    (fetch : Except String (List JSONDeviceOsVersions)) :
    (Option (List String) × Option String) × WmClient :=
  let loaded := loadDeviceOsesData c fetch
  let c := loaded.1
  if loaded.2.isSome ∧ 0 < (c.deviceOses.getD []).length then ((none, loaded.2), c)
  else
    match mapGet? (c.deviceOsVerMap.getD []) osName with
    | some val => ((some (val.filter (fun v => !(v == ""))), none), c)
    | none =>
        ((none, some ("Error getting data from WM server: " ++ osName ++ " does not exist")), c)

/-- `WmClient.loadDeviceMakesData`. -/
def loadDeviceMakesData (c : WmClient) (fetch : Except String (List JSONMakeModel)) :
    WmClient × Option String :=
  if 0 < (c.deviceMakes.getD []).length then (c, none)
  else
    match fetch with
    | .error e => (c, some e)
    | .ok mkModels =>
        let acc := mkModels.foldl
          (fun (acc : List (String × List JSONModelMktName) × List String) mkModel =>
            let dmMap := acc.1
            let dm := acc.2
            let dm := if (mapGet? dmMap mkModel.BrandName).isSome then dm else dm ++ [mkModel.BrandName]
            (mapSet dmMap mkModel.BrandName
              ((mapGetD dmMap mkModel.BrandName []) ++ [⟨mkModel.ModelName, mkModel.MarketingName⟩]), dm))
          ([], [])
        ({ c with deviceMakesMap := some acc.1, deviceMakes := some acc.2 }, none)

/-- `WmClient.GetAllDeviceMakes`. -/
def GetAllDeviceMakes (c : WmClient) (fetch : Except String (List JSONMakeModel)) :
    (Option (List String) × Option String) × WmClient :=
  let loaded := loadDeviceMakesData c fetch
  let c := loaded.1
  if loaded.2.isSome ∧ 0 < (c.deviceMakes.getD []).length then ((none, loaded.2), c)
  else ((c.deviceMakes, none), c)

/-- `WmClient.GetAllDevicesForMake`. -/
def GetAllDevicesForMake (c : WmClient) (brandName : String)
    (fetch : Except String (List JSONMakeModel)) :
    (Option (List JSONModelMktName) × Option String) × WmClient :=
  let loaded := loadDeviceMakesData c fetch
  let c := loaded.1
  if loaded.2.isSome ∧ 0 < (c.deviceMakes.getD []).length then ((none, loaded.2), c)
  else
    match mapGet? (c.deviceMakesMap.getD []) brandName with
    | some val => ((some val, none), c)
    | none =>
        ((none, some ("Error getting data from WM server: " ++ brandName ++ " does not exist")), c)

/-! ### `GetInfo` and `Create` -/

/-- `checkData` from `wmclient.go`. -/
def checkData (data : JSONInfoData) : Bool :=
  decide (0 < data.WmVersion.length) && decide (0 < data.WurflAPIVersion.length) &&
  decide (0 < data.WurflInfo.length) &&
  (decide (0 < data.StaticCaps.length) || decide (0 < data.VirtualCaps.length))

/-- `WmClient.GetInfo`, given the outcome of the `/v2/getinfo/json` GET +
decode.  On valid data the load-time token is fed to `clearCachesIfNeeded`. -/
def GetInfo (c : WmClient) (net : Except String JSONInfoData) :
    (Option JSONInfoData × Option String) × WmClient :=
  match net with
  | .error e => ((none, some e), c)
  | .ok info =>
      if checkData info then ((some info, none), clearCachesIfNeeded c info.Ltime)
      else ((none, some "server returned empty data or a wrong json format"), c)

/-- Sorted insertion used to model `sort.Strings`. -/
def insertSorted (x : String) : List String → List String
  | [] => [x]
  | y :: ys => if strLt x y then x :: y :: ys else y :: insertSorted x ys

/-- `sort.Strings`: sort a string slice ascending. -/
def sortStrings (l : List String) : List String := l.foldr insertSorted []

/-- The zero-valued `WmClient` built by `Create` before the handshake, with
the scheme defaulting rule applied. -/
def newClient (Scheme Host Port BaseURI : String) : WmClient :=
  { scheme := if 0 < Scheme.length then Scheme else "http",
    host := Host, port := Port, baseURI := BaseURI,
    StaticCaps := [], VirtualCaps := [],
    requestedStaticCaps := none, requestedVirtualCaps := none,
    ImportantHeaders := [],
    deviceCache := none, userAgentCache := none,
    mkModels := none, deviceMakes := none, deviceMakesMap := none,
    deviceOses := none, deviceOsVerMap := none,
    clientLtime := "" }

/-- `Create`: build the client, run the `GetInfo` handshake (whose network
outcome is the `net` argument), and on success commit the server's
important-header list and sorted capability registry.  On any handshake
failure the result is `(none, the error)`. -/
def Create (Scheme Host Port BaseURI : String) (net : Except String JSONInfoData) :
    Option WmClient × Option String :=
  let client := newClient Scheme Host Port BaseURI
  let res := GetInfo client net
  match res.1 with
  | (_, some e) => (none, some e)
  | (some data, none) =>
      (some { res.2 with ImportantHeaders := data.ImportantHeaders,
                         StaticCaps := sortStrings data.StaticCaps,
                         VirtualCaps := sortStrings data.VirtualCaps }, none)
  | (none, none) => (none, none)

/-! ### Derived notions used by the statements -/

/-- The cache slot (header cache or device cache) a `LookupOp` works on. -/
def opCache (c : WmClient) (op : LookupOp) : Option (Lru JSONDeviceData) :=
  if usesUaCache op then c.userAgentCache else c.deviceCache

/-- The state produced by the populate step of a missed lookup: the fresh
result is added to the operation's cache under the operation's key (computed
from the pre-lookup important-header list `imp`). -/
def addOpResult (md5 : String → String) (imp : List String) (c : WmClient)
    (op : LookupOp) (deviceData : JSONDeviceData) : WmClient :=
  if usesUaCache op then addToUaCache c (opKeyStr md5 imp op) deviceData
  else addToDeviceCache c (opKeyStr md5 imp op) deviceData

/-- The important-header names, lowercased (the set of header names that can
influence a header fingerprint). -/
def lowImp (importantHeaders : List String) : List String :=
  importantHeaders.map toLowerStr

/-- The entries of a header map that are relevant to the fingerprint: those
whose lowercased name is a lowercased important-header name, keyed by their
lowercased name.  Two header maps that differ only in name casing, entry
order, or extra non-important headers have permuted `relevantEntries`. -/
def relevantEntries (importantHeaders : List String) (headers : List (String × String)) :
    List (String × String) :=
  (headers.filter (fun p => decide (toLowerStr p.1 ∈ lowImp importantHeaders))).map
    (fun p => (toLowerStr p.1, p.2))

/-- The value of the last entry of `headers` whose lowercased name is `k`
(the binding that survives in a Go map keyed by lowercased names). -/
def lastLook (headers : List (String × String)) (k : String) : Option String :=
  (headers.reverse.find? (fun p => toLowerStr p.1 == k)).map (fun p => p.2)

/-- All values stored in a possibly-absent LRU cache carry a blank `Error`
field. -/
def lruBlankErrors : Option (Lru JSONDeviceData) → Prop
  | none => True
  | some cache => ∀ p ∈ cache.entries, p.2.Error = ""

/-- Both caches of a client hold only values with a blank `Error` field
(true of every reachable state: values enter caches only via
`internalLookup`). -/
def cacheWF (c : WmClient) : Prop :=
  lruBlankErrors c.deviceCache ∧ lruBlankErrors c.userAgentCache

/-! ### Concrete fixtures for scenarios, witnesses and counterexamples -/

/-- A well-formed device-detection payload. -/
def sampleDevice : JSONDeviceData :=
  { APIVersion := "2.1.3", Capabilities := some [("wurfl_id", "generic")],
    Error := "", Mtime := 1, Ltime := "t1" }

/-- A second payload carrying a different load-time token. -/
def sampleDevice2 : JSONDeviceData :=
  { APIVersion := "2.1.3", Capabilities := some [("wurfl_id", "nokia_generic_series40")],
    Error := "", Mtime := 2, Ltime := "t2" }

/-- A cache-enabled client in its initial state (both caches sized, nothing
committed, auxiliary tables unbuilt). -/
def baseClient : WmClient :=
  { scheme := "http", host := "localhost", port := "8080", baseURI := "",
    StaticCaps := ["brand_name", "model_name"], VirtualCaps := ["is_app", "is_ios"],
    requestedStaticCaps := none, requestedVirtualCaps := none,
    ImportantHeaders := ["User-Agent"],
    deviceCache := some (lruNew JSONDeviceData deviceDefaultCacheSize),
    userAgentCache := some (lruNew JSONDeviceData 1000),
    mkModels := none, deviceMakes := none, deviceMakesMap := none,
    deviceOses := none, deviceOsVerMap := none, clientLtime := "" }

/-- `baseClient` after a committed static-capability request and one entry
in each cache, with a stored load-time token. -/
def loadedClient : WmClient :=
  { baseClient with
      requestedStaticCaps := some ["brand_name"],
      deviceCache := some ⟨deviceDefaultCacheSize, [("nokia_generic_series40", sampleDevice)]⟩,
      userAgentCache := some ⟨1000, [("uakey", sampleDevice)]⟩,
      clientLtime := "t0" }

/-- `baseClient` with a built, non-empty OS/version auxiliary table. -/
def osLoadedClient : WmClient :=
  { baseClient with
      deviceOses := some ["Android"],
      deviceOsVerMap := some [("Android", ["7.0"])] }

/-- A valid `/v2/getinfo/json` payload. -/
def sampleInfo : JSONInfoData :=
  { WurflAPIVersion := "2.1.3", WurflInfo := "WURFL data", WmVersion := "1.2.0.0",
    ImportantHeaders := ["User-Agent"], StaticCaps := ["brand_name"],
    VirtualCaps := ["is_app"], Ltime := "t0" }

/-- The raw OS/version entry list of the C9 scenario. -/
def osFetchC9 : List JSONDeviceOsVersions :=
  [⟨"Android", "7.0"⟩, ⟨"Android", ""⟩, ⟨"iOS", "10.2"⟩]

/-! ## General lemmas -/

theorem lruLenOpt_clearLru {V : Type} (o : Option (Lru V)) : lruLenOpt (clearLru o) = 0 := by
  cases o with
  | none => rfl
  | some cache =>
      simp only [clearLru]
      split
      · rfl
      · next h => simp only [lruLenOpt]; omega

theorem clearLru_isSome {V : Type} (o : Option (Lru V)) : (clearLru o).isSome = o.isSome := by
  cases o with
  | none => rfl
  | some cache => simp only [clearLru]; split <;> rfl

theorem clearCache_sizes (c : WmClient) : GetActualCacheSizes (clearCache c) = (0, 0) := by
  simp [GetActualCacheSizes, clearCache, lruLenOpt_clearLru]

theorem clearCachesIfNeeded_eq_clearCache (c : WmClient) (ltime : String)
    (hlen : 0 < ltime.length) (hne : c.clientLtime ≠ ltime) :
    clearCachesIfNeeded c ltime = clearCache { c with clientLtime := ltime } := by
  simp [clearCachesIfNeeded, hlen, hne]

theorem clearCachesIfNeeded_clientLtime (c : WmClient) (ltime : String)
    (hlen : 0 < ltime.length) : (clearCachesIfNeeded c ltime).clientLtime = ltime := by
  unfold clearCachesIfNeeded
  split
  · simp [clearCache]
  · next h =>
      rcases not_and_or.mp h with h' | h'
      · exact absurd hlen h'
      · exact not_not.mp h'

theorem clearCachesIfNeeded_ImportantHeaders (c : WmClient) (ltime : String) :
    (clearCachesIfNeeded c ltime).ImportantHeaders = c.ImportantHeaders := by
  unfold clearCachesIfNeeded
  split <;> simp [clearCache]

theorem clearCachesIfNeeded_ua_isSome (c : WmClient) (ltime : String) :
    (clearCachesIfNeeded c ltime).userAgentCache.isSome = c.userAgentCache.isSome := by
  unfold clearCachesIfNeeded
  split <;> simp [clearCache, clearLru_isSome]

theorem clearCachesIfNeeded_dev_isSome (c : WmClient) (ltime : String) :
    (clearCachesIfNeeded c ltime).deviceCache.isSome = c.deviceCache.isSome := by
  unfold clearCachesIfNeeded
  split <;> simp [clearCache, clearLru_isSome]

/-! ## C4: invalidation stores the token, clears caches and tables,
leaves the registry alone -/

/-- C4 (amended: the response token must be non-empty — `clearCachesIfNeeded`
ignores an empty token even when it differs from the stored one).  For every
client state and non-empty token differing from the stored one, the token is
stored, both caches report size 0, all three auxiliary tables are dropped,
and the registry collections `StaticCaps`/`VirtualCaps` are unchanged. -/
theorem clearCachesIfNeeded_stores_and_clears (c : WmClient) (ltime : String)
    (hlen : 0 < ltime.length) (hne : c.clientLtime ≠ ltime) :
    (clearCachesIfNeeded c ltime).clientLtime = ltime ∧
    GetActualCacheSizes (clearCachesIfNeeded c ltime) = (0, 0) ∧
    (clearCachesIfNeeded c ltime).mkModels = none ∧
    (clearCachesIfNeeded c ltime).deviceMakes = none ∧
    (clearCachesIfNeeded c ltime).deviceMakesMap = none ∧
    (clearCachesIfNeeded c ltime).deviceOses = none ∧
    (clearCachesIfNeeded c ltime).deviceOsVerMap = none ∧
    (clearCachesIfNeeded c ltime).StaticCaps = c.StaticCaps ∧
    (clearCachesIfNeeded c ltime).VirtualCaps = c.VirtualCaps := by
  rw [clearCachesIfNeeded_eq_clearCache c ltime hlen hne]
  refine ⟨by simp [clearCache], clearCache_sizes _, ?_, ?_, ?_, ?_, ?_, ?_, ?_⟩ <;>
    simp [clearCache]

/-- Witness for C4 at a concrete state and token. -/
theorem clearCachesIfNeeded_stores_and_clears_witness :
    (clearCachesIfNeeded loadedClient "t9").clientLtime = "t9" ∧
    GetActualCacheSizes (clearCachesIfNeeded loadedClient "t9") = (0, 0) ∧
    (clearCachesIfNeeded loadedClient "t9").StaticCaps = loadedClient.StaticCaps := by
  have h := clearCachesIfNeeded_stores_and_clears loadedClient "t9" (by decide) (by decide)
  exact ⟨h.1, h.2.1, h.2.2.2.2.2.2.2.1⟩

/-- C4 counterexample: the claim quantifies over every token differing from
the stored one, but an empty response token differs from the stored
non-empty token and is ignored: nothing is stored and nothing is cleared. -/
theorem clearCachesIfNeeded_empty_token_counterexample :
    clearCachesIfNeeded loadedClient "" = loadedClient ∧
    loadedClient.clientLtime ≠ "" ∧
    GetActualCacheSizes (clearCachesIfNeeded loadedClient "") = (1, 1) ∧
    (clearCachesIfNeeded loadedClient "").clientLtime ≠ "" := by decide

/-! ## C1: requested-capability setters versus the caches -/

/-- C1 (amended: the unchanged-state guarantee for a non-`nil` argument whose
registry-filtered result is empty holds for the two individual setters only;
`SetRequestedCapabilities` with a non-`nil` argument always commits the —
possibly empty — filtered lists and clears both caches).  For every client
state and every call: a `nil` argument clears both caches to size 0; an
individual setter whose filtered list is non-empty commits it and clears
both caches to size 0, and one whose filtered list is empty is a complete
no-op; the combined setter with a non-`nil` argument always commits both
filtered lists and clears both caches to size 0. -/
theorem setRequestedCapabilities_contract (c : WmClient) (l : List String) :
    GetActualCacheSizes (SetRequestedStaticCapabilities c none) = (0, 0) ∧
    GetActualCacheSizes (SetRequestedVirtualCapabilities c none) = (0, 0) ∧
    GetActualCacheSizes (SetRequestedCapabilities c none) = (0, 0) ∧
    ((l.filter (fun n => HasStaticCapability c n)).length = 0 →
        SetRequestedStaticCapabilities c (some l) = c) ∧
    (0 < (l.filter (fun n => HasStaticCapability c n)).length →
        GetActualCacheSizes (SetRequestedStaticCapabilities c (some l)) = (0, 0) ∧
        (SetRequestedStaticCapabilities c (some l)).requestedStaticCaps
          = some (l.filter (fun n => HasStaticCapability c n))) ∧
    ((l.filter (fun n => HasVirtualCapability c n)).length = 0 →
        SetRequestedVirtualCapabilities c (some l) = c) ∧
    (0 < (l.filter (fun n => HasVirtualCapability c n)).length →
        GetActualCacheSizes (SetRequestedVirtualCapabilities c (some l)) = (0, 0) ∧
        (SetRequestedVirtualCapabilities c (some l)).requestedVirtualCaps
          = some (l.filter (fun n => HasVirtualCapability c n))) ∧
    (GetActualCacheSizes (SetRequestedCapabilities c (some l)) = (0, 0) ∧
     (SetRequestedCapabilities c (some l)).requestedStaticCaps
        = some (l.filter (fun n => HasStaticCapability c n)) ∧
     (SetRequestedCapabilities c (some l)).requestedVirtualCaps
        = some (l.filter (fun n => !HasStaticCapability c n && HasVirtualCapability c n))) := by
  refine ⟨clearCache_sizes _, clearCache_sizes _, clearCache_sizes _, ?_, ?_, ?_, ?_, ?_, ?_, ?_⟩
  · intro h
    simp [SetRequestedStaticCapabilities, h]
  · intro h
    simp only [SetRequestedStaticCapabilities, h, if_pos]
    exact ⟨clearCache_sizes _, by simp [clearCache]⟩
  · intro h
    simp [SetRequestedVirtualCapabilities, h]
  · intro h
    simp only [SetRequestedVirtualCapabilities, h, if_pos]
    exact ⟨clearCache_sizes _, by simp [clearCache]⟩
  · exact clearCache_sizes _
  · simp [SetRequestedCapabilities, clearCache]
  · simp [SetRequestedCapabilities, clearCache]

/-- Witness for C1 at concrete inputs: a no-op all-invalid individual call
and a committing valid call. -/
theorem setRequestedCapabilities_contract_witness :
    SetRequestedStaticCapabilities loadedClient (some ["no_such_cap"]) = loadedClient ∧
    GetActualCacheSizes (SetRequestedStaticCapabilities loadedClient (some ["brand_name"])) = (0, 0) := by
  refine ⟨(setRequestedCapabilities_contract loadedClient ["no_such_cap"]).2.2.2.1 (by decide), ?_⟩
  exact ((setRequestedCapabilities_contract loadedClient ["brand_name"]).2.2.2.2.1 (by decide)).1

/-- C1 counterexample: `SetRequestedCapabilities` with a non-`nil` argument
consisting only of unknown names has an empty filtered result, yet it
replaces the previously committed static set by the empty list and clears
both caches — the claim's unchanged-state clause fails on the combined
setter. -/
theorem setRequestedCapabilities_all_invalid_counterexample :
    (["no_such_cap"].filter (fun n => HasStaticCapability loadedClient n)) = [] ∧
    (["no_such_cap"].filter (fun n => HasVirtualCapability loadedClient n)) = [] ∧
    loadedClient.requestedStaticCaps = some ["brand_name"] ∧
    GetActualCacheSizes loadedClient = (1, 1) ∧
    (SetRequestedCapabilities loadedClient (some ["no_such_cap"])).requestedStaticCaps = some [] ∧
    GetActualCacheSizes (SetRequestedCapabilities loadedClient (some ["no_such_cap"])) = (0, 0) ∧
    SetRequestedCapabilities loadedClient (some ["no_such_cap"]) ≠ loadedClient := by decide

/-! ## C7: application errors return the partial object alongside the error -/

/-- C7: for every well-formed response whose embedded error field is
non-empty, `internalLookup` returns a non-nil error containing the server's
message together with the partially populated data object, whose metadata
fields (API version, creation timestamp, load-time token) are those parsed
from the response. -/
theorem internalLookup_app_error (d : JSONDeviceData) (h : 0 < d.Error.length) :
    internalLookup (.ok d) =
      (some { d with Error := "" },
       some ("Received error from WM server: " ++ d.Error)) ∧
    ∀ d', (internalLookup (.ok d)).1 = some d' →
      d'.APIVersion = d.APIVersion ∧ d'.Mtime = d.Mtime ∧ d'.Ltime = d.Ltime := by
  refine ⟨by simp [internalLookup, h], ?_⟩
  intro d' hd'
  simp only [internalLookup, h, if_pos] at hd'
  rw [Option.some_inj] at hd'
  subst hd'
  exact ⟨rfl, rfl, rfl⟩

/-- Witness for C7 at a concrete erroneous response. -/
theorem internalLookup_app_error_witness :
    internalLookup (.ok { sampleDevice with Error := "device not found" }) =
      (some sampleDevice,
       some ("Received error from WM server: " ++ "device not found")) := by
  have h := internalLookup_app_error { sampleDevice with Error := "device not found" } (by decide)
  exact h.1

/-! ## C5: bulk-refresh failure with a non-empty table in memory -/

/-- C5 (amended: when a non-empty table is in memory no refresh is attempted
at all, so `GetAllOSes`/`GetAllDeviceMakes` return the previous table data
with a `nil` error — the fetch outcome, failed or not, never surfaces; the
claimed stale-data-plus-error return does not exist in the code, whose
error-with-data branch requires a non-empty table that a failed load can
never leave behind). -/
theorem getAll_stale_table (c : WmClient)
    (fo : Except String (List JSONDeviceOsVersions))
    (fm : Except String (List JSONMakeModel)) (lo lm : List String) :
    (c.deviceOses = some lo → lo ≠ [] → GetAllOSes c fo = ((some lo, none), c)) ∧
    (c.deviceMakes = some lm → lm ≠ [] → GetAllDeviceMakes c fm = ((some lm, none), c)) := by
  constructor
  · intro h hne
    have hlen : 0 < lo.length := List.length_pos.mpr hne
    simp [GetAllOSes, loadDeviceOsesData, h, hlen]
  · intro h hne
    have hlen : 0 < lm.length := List.length_pos.mpr hne
    simp [GetAllDeviceMakes, loadDeviceMakesData, h, hlen]

/-- Witness for C5 at a concrete state whose OS table is non-empty and whose
fetch outcome is a failure. -/
theorem getAll_stale_table_witness :
    GetAllOSes osLoadedClient (.error "connection refused") =
      ((some ["Android"], none), osLoadedClient) := by
  exact (getAll_stale_table osLoadedClient (.error "connection refused")
    (.ok []) ["Android"] []).1 rfl (by decide)

/-- C5 counterexample: with a non-empty previous table in memory and a
failing fetch, `GetAllOSes` returns the stale data with a `nil` error — not
"the previous stale data plus the error" the claim demands (the error
component is `none`, not the failure message). -/
theorem getAll_stale_table_counterexample :
    GetAllOSes osLoadedClient (.error "network down") =
      ((some ["Android"], none), osLoadedClient) ∧
    (GetAllOSes osLoadedClient (.error "network down")).1.2 = none ∧
    (GetAllOSes osLoadedClient (.error "network down")).1.2 ≠ some "network down" := by decide

/-! ## C9: the OS/version auxiliary-table scenario -/

/-- C9: building the OS/version table from
`[("Android","7.0"),("Android",""),("iOS","10.2")]`:
`GetAllVersionsForOS "Android"` returns `["7.0"]` (the empty version is
filtered from the result yet still stored in the underlying map),
`GetAllOSes` returns the distinct names in first-seen order, and asking for
an absent name is a not-found error distinct from an empty result. -/
theorem osVersionTable_scenario :
    (GetAllVersionsForOS baseClient "Android" (.ok osFetchC9)).1 = (some ["7.0"], none) ∧
    mapGet? (((loadDeviceOsesData baseClient (.ok osFetchC9)).1).deviceOsVerMap.getD [])
        "Android" = some ["7.0", ""] ∧
    (GetAllOSes baseClient (.ok osFetchC9)).1 = (some ["Android", "iOS"], none) ∧
    (GetAllVersionsForOS baseClient "Symbian" (.ok osFetchC9)).1 =
      (none, some "Error getting data from WM server: Symbian does not exist") ∧
    (GetAllVersionsForOS baseClient "Symbian" (.ok osFetchC9)).1 ≠ (some [], none) := by decide

/-! ## C6: construction failures return no client -/

theorem clearCachesIfNeeded_scheme (c : WmClient) (ltime : String) :
    (clearCachesIfNeeded c ltime).scheme = c.scheme := by
  unfold clearCachesIfNeeded
  split <;> simp [clearCache]

/-- C6 (amended: an empty scheme is not a construction failure — it defaults
to `"http"` and, with a successful handshake, yields a client; failures are
handshake errors — unreachable host, decode failure, invalid data — and any
failure returns a `nil` client with a non-nil error, never a partial
client). -/
theorem create_contract (S H P B : String) (net : Except String JSONInfoData) :
    (∀ e, net = .error e → Create S H P B net = (none, some e)) ∧
    (∀ info, net = .ok info → checkData info = false →
        Create S H P B net =
          (none, some "server returned empty data or a wrong json format")) ∧
    (∀ info, net = .ok info → checkData info = true →
        ∃ c', Create S H P B net = (some c', none) ∧
          c'.scheme = (if 0 < S.length then S else "http") ∧
          c'.StaticCaps = sortStrings info.StaticCaps ∧
          c'.VirtualCaps = sortStrings info.VirtualCaps ∧
          c'.ImportantHeaders = info.ImportantHeaders) ∧
    (∀ e, (Create S H P B net).2 = some e → (Create S H P B net).1 = none) := by
  refine ⟨?_, ?_, ?_, ?_⟩
  · intro e he
    subst he
    simp [Create, GetInfo]
  · intro info hi hc
    subst hi
    simp [Create, GetInfo, hc]
  · intro info hi hc
    subst hi
    refine ⟨{ clearCachesIfNeeded (newClient S H P B) info.Ltime with
                ImportantHeaders := info.ImportantHeaders,
                StaticCaps := sortStrings info.StaticCaps,
                VirtualCaps := sortStrings info.VirtualCaps }, ?_, ?_, rfl, rfl, rfl⟩
    · simp [Create, GetInfo, hc]
    · show (clearCachesIfNeeded (newClient S H P B) info.Ltime).scheme = _
      rw [clearCachesIfNeeded_scheme]
      rfl
  · intro e
    cases net with
    | error e' => simp [Create, GetInfo]
    | ok info =>
        by_cases hc : checkData info <;> simp [Create, GetInfo, hc]

/-- Witness for C6: a failing handshake at concrete inputs gives a `nil`
client and the error. -/
theorem create_contract_witness :
    Create "http" "localhost" "18080" "" (.error "connection refused") =
      (none, some "connection refused") := by
  exact (create_contract "http" "localhost" "18080" ""
    (.error "connection refused")).1 "connection refused" rfl

/-- C6 counterexample: an empty scheme with a reachable host is not a
construction failure — the scheme defaults to `"http"` and a client is
returned with a `nil` error, contradicting the claim that every empty-scheme
construction attempt returns a non-nil error and a `nil` client. -/
theorem create_empty_scheme_counterexample :
    (Create "" "localhost" "8080" "" (.ok sampleInfo)).1.isSome = true ∧
    (Create "" "localhost" "8080" "" (.ok sampleInfo)).2 = none ∧
    ((Create "" "localhost" "8080" "" (.ok sampleInfo)).1.map (fun c' => c'.scheme)
      = some "http") := by decide

/-! ## Lookup step lemmas -/

theorem uaKeyedLookup_miss_ok (c : WmClient) (key : String) (d : JSONDeviceData)
    (hp : uaCacheProbe c key = none) (hd : d.Error = "") :
    uaKeyedLookup c key (.ok d) =
      ((some d, none), addToUaCache (clearCachesIfNeeded c d.Ltime) key d, true) := by
  have he : d.Error.length = 0 := by rw [hd]; rfl
  simp [uaKeyedLookup, hp, internalLookup, he]

theorem devKeyedLookup_miss_ok (c : WmClient) (key : String) (d : JSONDeviceData)
    (hp : devCacheProbe c key = none) (hd : d.Error = "") :
    devKeyedLookup c key (.ok d) =
      ((some d, none), addToDeviceCache (clearCachesIfNeeded c d.Ltime) key d, true) := by
  have he : d.Error.length = 0 := by rw [hd]; rfl
  simp [devKeyedLookup, hp, internalLookup, he]

theorem LookupUserAgent_miss_ok (md5 : String → String) (c : WmClient) (ua : String)
    (d : JSONDeviceData)
    (hp : uaCacheProbe c (getUserAgentCacheKey md5 c.ImportantHeaders [(userAgentHeader, ua)]) = none)
    (hd : d.Error = "") :
    LookupUserAgent md5 c ua (.ok d) =
      ((some d, none),
       addToUaCache (clearCachesIfNeeded c d.Ltime)
         (getUserAgentCacheKey md5 c.ImportantHeaders [(userAgentHeader, ua)]) d, true) :=
  uaKeyedLookup_miss_ok c _ d hp hd

theorem LookupDeviceID_miss_ok (c : WmClient) (deviceID : String) (d : JSONDeviceData)
    (hp : devCacheProbe c deviceID = none) (hd : d.Error = "") :
    LookupDeviceID c deviceID (.ok d) =
      ((some d, none),
       addToDeviceCache (clearCachesIfNeeded c d.Ltime) deviceID d, true) :=
  devKeyedLookup_miss_ok c _ d hp hd

theorem LookupHeaders_miss_ok (md5 : String → String) (c : WmClient)
    (headers : List (String × String)) (d : JSONDeviceData)
    (hp : uaCacheProbe c (headersCacheKey md5 c.ImportantHeaders headers) = none)
    (hd : d.Error = "") :
    LookupHeaders md5 c headers (.ok d) =
      ((some d, none),
       addToUaCache (clearCachesIfNeeded c d.Ltime)
         (headersCacheKey md5 c.ImportantHeaders headers) d, true) :=
  uaKeyedLookup_miss_ok c _ d hp hd

theorem doLookup_miss_ok (md5 : String → String) (c : WmClient) (op : LookupOp)
    (d : JSONDeviceData) (hp : cacheProbe md5 c op = none) (hd : d.Error = "") :
    doLookup md5 c op (.ok d) =
      ((some d, none),
       addOpResult md5 c.ImportantHeaders (clearCachesIfNeeded c d.Ltime) op d, true) := by
  cases op with
  | byUserAgent ua =>
      simp only [cacheProbe, usesUaCache, opKeyStr, if_pos, Option.map_eq_none'] at hp
      exact LookupUserAgent_miss_ok md5 c ua d hp hd
  | byDeviceID did =>
      simp [cacheProbe, usesUaCache, opKeyStr, Option.map_eq_none'] at hp
      exact LookupDeviceID_miss_ok c did d hp hd
  | byHeaders hs =>
      simp only [cacheProbe, usesUaCache, opKeyStr, if_pos, Option.map_eq_none'] at hp
      exact LookupHeaders_miss_ok md5 c hs d hp hd

theorem addToUaCache_clientLtime (c : WmClient) (k : String) (d : JSONDeviceData) :
    (addToUaCache c k d).clientLtime = c.clientLtime := by
  cases h : c.userAgentCache <;> simp [addToUaCache, h]

theorem addToDeviceCache_clientLtime (c : WmClient) (k : String) (d : JSONDeviceData) :
    (addToDeviceCache c k d).clientLtime = c.clientLtime := by
  cases h : c.deviceCache <;> simp [addToDeviceCache, h]

theorem addToUaCache_ImportantHeaders (c : WmClient) (k : String) (d : JSONDeviceData) :
    (addToUaCache c k d).ImportantHeaders = c.ImportantHeaders := by
  cases h : c.userAgentCache <;> simp [addToUaCache, h]

theorem addToDeviceCache_ImportantHeaders (c : WmClient) (k : String) (d : JSONDeviceData) :
    (addToDeviceCache c k d).ImportantHeaders = c.ImportantHeaders := by
  cases h : c.deviceCache <;> simp [addToDeviceCache, h]

theorem addToUaCache_ua_isSome (c : WmClient) (k : String) (d : JSONDeviceData) :
    (addToUaCache c k d).userAgentCache.isSome = c.userAgentCache.isSome := by
  cases h : c.userAgentCache <;> simp [addToUaCache, h]

theorem addToUaCache_dev (c : WmClient) (k : String) (d : JSONDeviceData) :
    (addToUaCache c k d).deviceCache = c.deviceCache := by
  cases h : c.userAgentCache <;> simp [addToUaCache, h]

theorem addToDeviceCache_dev_isSome (c : WmClient) (k : String) (d : JSONDeviceData) :
    (addToDeviceCache c k d).deviceCache.isSome = c.deviceCache.isSome := by
  cases h : c.deviceCache <;> simp [addToDeviceCache, h]

theorem addToDeviceCache_ua (c : WmClient) (k : String) (d : JSONDeviceData) :
    (addToDeviceCache c k d).userAgentCache = c.userAgentCache := by
  cases h : c.deviceCache <;> simp [addToDeviceCache, h]

theorem addOpResult_clientLtime (md5 : String → String) (imp : List String) (c : WmClient)
    (op : LookupOp) (d : JSONDeviceData) :
    (addOpResult md5 imp c op d).clientLtime = c.clientLtime := by
  cases op <;>
    simp [addOpResult, usesUaCache, addToUaCache_clientLtime, addToDeviceCache_clientLtime]

theorem addOpResult_ImportantHeaders (md5 : String → String) (imp : List String) (c : WmClient)
    (op : LookupOp) (d : JSONDeviceData) :
    (addOpResult md5 imp c op d).ImportantHeaders = c.ImportantHeaders := by
  cases op <;>
    simp [addOpResult, usesUaCache, addToUaCache_ImportantHeaders, addToDeviceCache_ImportantHeaders]

theorem addOpResult_ua_isSome (md5 : String → String) (imp : List String) (c : WmClient)
    (op : LookupOp) (d : JSONDeviceData) :
    (addOpResult md5 imp c op d).userAgentCache.isSome = c.userAgentCache.isSome := by
  cases op <;>
    simp [addOpResult, usesUaCache, addToUaCache_ua_isSome, addToDeviceCache_ua]

theorem addOpResult_dev_isSome (md5 : String → String) (imp : List String) (c : WmClient)
    (op : LookupOp) (d : JSONDeviceData) :
    (addOpResult md5 imp c op d).deviceCache.isSome = c.deviceCache.isSome := by
  cases op <;>
    simp [addOpResult, usesUaCache, addToUaCache_dev, addToDeviceCache_dev_isSome]

theorem clearLru_some_entries {V : Type} (o : Option (Lru V)) (cache : Lru V)
    (h : clearLru o = some cache) : cache.entries = [] := by
  cases o with
  | none => simp [clearLru] at h
  | some cache0 =>
      simp only [clearLru] at h
      split at h
      · rw [Option.some_inj] at h
        subst h
        rfl
      · next hlen =>
          rw [Option.some_inj] at h
          subst h
          have h0 : lruLen cache0 = 0 := by omega
          exact List.length_eq_zero.mp h0

theorem lruLen_lruAdd_nil {V : Type} (cache : Lru V) (h : cache.entries = [])
    (k : String) (v : V) : lruLen (lruAdd cache k v) = 1 := by
  simp only [lruAdd, h, List.find?_nil, Option.isSome_none, Bool.false_eq_true, if_false]
  split
  · next hcond =>
      exact absurd hcond (by simp)
  · rfl

theorem lruLenOpt_some {V : Type} (cache : Lru V) : lruLenOpt (some cache) = lruLen cache := rfl

theorem sizes_after_clear_add_ua (c : WmClient) (k : String) (d : JSONDeviceData)
    (hua : c.userAgentCache.isSome = true) :
    GetActualCacheSizes (addToUaCache (clearCache c) k d) = (0, 1) := by
  obtain ⟨uac, huac⟩ := Option.isSome_iff_exists.mp hua
  have hsome : ∃ x, clearLru c.userAgentCache = some x := by
    rw [huac]; simp only [clearLru]; split <;> exact ⟨_, rfl⟩
  obtain ⟨x, hx⟩ := hsome
  have hxnil : x.entries = [] := clearLru_some_entries _ _ hx
  simp [addToUaCache, hx, GetActualCacheSizes, clearCache, lruLenOpt_clearLru, lruLenOpt_some,
    lruLen_lruAdd_nil x hxnil]

theorem sizes_after_clear_add_dev (c : WmClient) (k : String) (d : JSONDeviceData)
    (hdev : c.deviceCache.isSome = true) :
    GetActualCacheSizes (addToDeviceCache (clearCache c) k d) = (1, 0) := by
  obtain ⟨devc, hdevc⟩ := Option.isSome_iff_exists.mp hdev
  have hsome : ∃ x, clearLru c.deviceCache = some x := by
    rw [hdevc]; simp only [clearLru]; split <;> exact ⟨_, rfl⟩
  obtain ⟨x, hx⟩ := hsome
  have hxnil : x.entries = [] := clearLru_some_entries _ _ hx
  simp [addToDeviceCache, hx, GetActualCacheSizes, clearCache, lruLenOpt_clearLru, lruLenOpt_some,
    lruLen_lruAdd_nil x hxnil]

/-! ## C3: the caches right after a second lookup carrying a new token -/

/-- C3 (amended: after the second lookup both caches have first been cleared,
but the second lookup's own fresh result is then re-inserted into the cache
it uses, so that cache reports size 1 and only the other cache reports size
0).  Both lookups are network lookups (`cacheProbe … = none`) that succeed
(`Error = ""`), both response tokens are non-empty, and the second token
differs from the first. -/
theorem secondLookup_invalidation (md5 : String → String) (c : WmClient)
    (op1 op2 : LookupOp) (d1 d2 : JSONDeviceData)
    (hdev : c.deviceCache.isSome = true) (hua : c.userAgentCache.isSome = true)
    (hp1 : cacheProbe md5 c op1 = none) (he1 : d1.Error = "") (ht1 : 0 < d1.Ltime.length)
    (he2 : d2.Error = "") (ht2 : 0 < d2.Ltime.length) (hne : d2.Ltime ≠ d1.Ltime) :
    ∀ c1, c1 = (doLookup md5 c op1 (.ok d1)).2.1 →
      cacheProbe md5 c1 op2 = none →
      (doLookup md5 c1 op2 (.ok d2)).1 = (some d2, none) ∧
      GetActualCacheSizes (doLookup md5 c1 op2 (.ok d2)).2.1
        = (if usesUaCache op2 then (0, 1) else (1, 0)) := by
  intro c1 hc1 hp2
  have h1 := doLookup_miss_ok md5 c op1 d1 hp1 he1
  rw [h1] at hc1
  have hlt : c1.clientLtime = d1.Ltime := by
    rw [hc1, addOpResult_clientLtime, clearCachesIfNeeded_clientLtime _ _ ht1]
  have hua1 : c1.userAgentCache.isSome = true := by
    rw [hc1, addOpResult_ua_isSome, clearCachesIfNeeded_ua_isSome]; exact hua
  have hdev1 : c1.deviceCache.isSome = true := by
    rw [hc1, addOpResult_dev_isSome, clearCachesIfNeeded_dev_isSome]; exact hdev
  have h2 := doLookup_miss_ok md5 c1 op2 d2 hp2 he2
  rw [h2]
  refine ⟨rfl, ?_⟩
  have hclear : clearCachesIfNeeded c1 d2.Ltime
      = clearCache { c1 with clientLtime := d2.Ltime } :=
    clearCachesIfNeeded_eq_clearCache c1 d2.Ltime ht2 (by rw [hlt]; exact fun h => hne h.symm)
  rw [hclear]
  have hua1' : ({ c1 with clientLtime := d2.Ltime } : WmClient).userAgentCache.isSome = true := hua1
  have hdev1' : ({ c1 with clientLtime := d2.Ltime } : WmClient).deviceCache.isSome = true := hdev1
  cases op2 with
  | byUserAgent ua =>
      simpa [addOpResult, usesUaCache] using
        sizes_after_clear_add_ua { c1 with clientLtime := d2.Ltime } _ d2 hua1'
  | byDeviceID did =>
      simpa [addOpResult, usesUaCache] using
        sizes_after_clear_add_dev { c1 with clientLtime := d2.Ltime } _ d2 hdev1'
  | byHeaders hs =>
      simpa [addOpResult, usesUaCache] using
        sizes_after_clear_add_ua { c1 with clientLtime := d2.Ltime } _ d2 hua1'

/-- Witness for C3 at concrete inputs: device-id lookup then user-agent
lookup, the second response carrying a new token, ends with cache sizes
`(0, 1)`. -/
theorem secondLookup_invalidation_witness :
    GetActualCacheSizes (doLookup (fun s => s)
        (doLookup (fun s => s) baseClient (.byDeviceID "id1") (.ok sampleDevice)).2.1
        (.byUserAgent "ua") (.ok sampleDevice2)).2.1 = (0, 1) := by
  have h := secondLookup_invalidation (fun s => s) baseClient (.byDeviceID "id1")
    (.byUserAgent "ua") sampleDevice sampleDevice2 (by decide) (by decide) (by decide) rfl
    (by decide) rfl (by decide) (by decide) _ rfl (by decide)
  simpa using h.2

/-- C3 counterexample: two successful device-id lookups whose second response
carries a new reload-time token leave the device cache at size 1 (the second
result was re-inserted after the clear), not 0 as the claim states. -/
theorem secondLookup_invalidation_counterexample :
    (LookupDeviceID baseClient "id1" (.ok sampleDevice)).1 = (some sampleDevice, none) ∧
    (LookupDeviceID (LookupDeviceID baseClient "id1" (.ok sampleDevice)).2.1 "id2"
        (.ok sampleDevice2)).1 = (some sampleDevice2, none) ∧
    sampleDevice2.Ltime ≠ sampleDevice.Ltime ∧
    GetActualCacheSizes (LookupDeviceID (LookupDeviceID baseClient "id1"
        (.ok sampleDevice)).2.1 "id2" (.ok sampleDevice2)).2.1 = (1, 0) ∧
    GetActualCacheSizes (LookupDeviceID (LookupDeviceID baseClient "id1"
        (.ok sampleDevice)).2.1 "id2" (.ok sampleDevice2)).2.1 ≠ (0, 0) := by decide

/-! ## C8 infrastructure: the front entry of a cache after a lookup -/

theorem lruAdd_entries_front {V : Type} (cache : Lru V) (k : String) (v : V) :
    ∃ rest, (lruAdd cache k v).entries = (k, v) :: rest := by
  unfold lruAdd
  split
  · exact ⟨_, rfl⟩
  · dsimp only
    split
    · next hcond =>
        cases hE : cache.entries with
        | nil =>
            rw [hE] at hcond
            simp at hcond
        | cons p tail =>
            exact ⟨_, rfl⟩
    · exact ⟨_, rfl⟩

theorem uaCacheProbe_some (c : WmClient) (key : String) (jdd : JSONDeviceData)
    (cache' : Lru JSONDeviceData) (hp : uaCacheProbe c key = some (jdd, cache')) :
    ∃ rest, cache'.entries = (key, jdd) :: rest := by
  unfold uaCacheProbe at hp
  cases hca : c.userAgentCache with
  | none => rw [hca] at hp; exact absurd hp (by simp)
  | some cache0 =>
      rw [hca] at hp
      dsimp only at hp
      unfold lruGet at hp
      cases hf : cache0.entries.find? (fun p => p.1 == key) with
      | none => rw [hf] at hp; simp at hp
      | some p =>
          rw [hf] at hp
          dsimp only at hp
          simp only [Option.some_inj, Prod.mk.injEq] at hp
          obtain ⟨hj, hcache⟩ := hp
          subst hj
          rw [← hcache]
          exact ⟨_, rfl⟩

theorem devCacheProbe_some (c : WmClient) (key : String) (jdd : JSONDeviceData)
    (cache' : Lru JSONDeviceData) (hp : devCacheProbe c key = some (jdd, cache')) :
    ∃ rest, cache'.entries = (key, jdd) :: rest := by
  unfold devCacheProbe at hp
  cases hca : c.deviceCache with
  | none => rw [hca] at hp; exact absurd hp (by simp)
  | some cache0 =>
      rw [hca] at hp
      dsimp only at hp
      unfold lruGet at hp
      cases hf : cache0.entries.find? (fun p => p.1 == key) with
      | none => rw [hf] at hp; simp at hp
      | some p =>
          rw [hf] at hp
          dsimp only at hp
          simp only [Option.some_inj, Prod.mk.injEq] at hp
          obtain ⟨hj, hcache⟩ := hp
          subst hj
          rw [← hcache]
          exact ⟨_, rfl⟩

theorem addToUaCache_front (c : WmClient) (key : String) (d : JSONDeviceData)
    (hua : c.userAgentCache.isSome = true) :
    ∃ cache rest, (addToUaCache c key d).userAgentCache = some cache ∧
      cache.entries = (key, d) :: rest := by
  obtain ⟨cache0, h0⟩ := Option.isSome_iff_exists.mp hua
  obtain ⟨rest, hrest⟩ := lruAdd_entries_front cache0 key d
  exact ⟨_, rest, by simp [addToUaCache, h0], hrest⟩

theorem addToDeviceCache_front (c : WmClient) (key : String) (d : JSONDeviceData)
    (hdev : c.deviceCache.isSome = true) :
    ∃ cache rest, (addToDeviceCache c key d).deviceCache = some cache ∧
      cache.entries = (key, d) :: rest := by
  obtain ⟨cache0, h0⟩ := Option.isSome_iff_exists.mp hdev
  obtain ⟨rest, hrest⟩ := lruAdd_entries_front cache0 key d
  exact ⟨_, rest, by simp [addToDeviceCache, h0], hrest⟩

theorem uaKeyedLookup_success_front (c : WmClient) (key : String)
    (net : Except String JSONDeviceData) (d : JSONDeviceData) (c' : WmClient) (b : Bool)
    (hua : c.userAgentCache.isSome = true)
    (h : uaKeyedLookup c key net = ((some d, none), c', b)) :
    (∃ cache rest, c'.userAgentCache = some cache ∧ cache.entries = (key, d) :: rest) ∧
    c'.ImportantHeaders = c.ImportantHeaders ∧
    c'.deviceCache.isSome = c.deviceCache.isSome := by
  unfold uaKeyedLookup at h
  cases hp : uaCacheProbe c key with
  | some pair =>
      obtain ⟨jdd, cache'⟩ := pair
      rw [hp] at h
      dsimp only at h
      simp only [Prod.mk.injEq, Option.some_inj] at h
      obtain ⟨⟨hd1, -⟩, hc', -⟩ := h
      subst hc'
      rw [hd1] at hp
      obtain ⟨rest, hrest⟩ := uaCacheProbe_some c key d cache' hp
      exact ⟨⟨cache', rest, rfl, hrest⟩, rfl, rfl⟩
  | none =>
      rw [hp] at h
      dsimp only at h
      rcases hil : internalLookup net with ⟨dOpt, eOpt⟩
      rw [hil] at h
      cases eOpt with
      | some e => simp at h
      | none =>
          cases dOpt with
          | some dd =>
              dsimp only at h
              simp only [Prod.mk.injEq, Option.some_inj] at h
              obtain ⟨⟨hd1, -⟩, hc', -⟩ := h
              subst hc'
              rw [hd1]
              have hua2 : (clearCachesIfNeeded c d.Ltime).userAgentCache.isSome = true := by
                rw [clearCachesIfNeeded_ua_isSome]; exact hua
              obtain ⟨cache, rest, hsl, hrest⟩ :=
                addToUaCache_front (clearCachesIfNeeded c d.Ltime) key d hua2
              refine ⟨⟨cache, rest, hsl, hrest⟩, ?_, ?_⟩
              · rw [addToUaCache_ImportantHeaders, clearCachesIfNeeded_ImportantHeaders]
              · rw [addToUaCache_dev, clearCachesIfNeeded_dev_isSome]
          | none => simp at h

theorem devKeyedLookup_success_front (c : WmClient) (key : String)
    (net : Except String JSONDeviceData) (d : JSONDeviceData) (c' : WmClient) (b : Bool)
    (hdev : c.deviceCache.isSome = true)
    (h : devKeyedLookup c key net = ((some d, none), c', b)) :
    (∃ cache rest, c'.deviceCache = some cache ∧ cache.entries = (key, d) :: rest) ∧
    c'.ImportantHeaders = c.ImportantHeaders ∧
    c'.userAgentCache.isSome = c.userAgentCache.isSome := by
  unfold devKeyedLookup at h
  cases hp : devCacheProbe c key with
  | some pair =>
      obtain ⟨jdd, cache'⟩ := pair
      rw [hp] at h
      dsimp only at h
      simp only [Prod.mk.injEq, Option.some_inj] at h
      obtain ⟨⟨hd1, -⟩, hc', -⟩ := h
      subst hc'
      rw [hd1] at hp
      obtain ⟨rest, hrest⟩ := devCacheProbe_some c key d cache' hp
      exact ⟨⟨cache', rest, rfl, hrest⟩, rfl, rfl⟩
  | none =>
      rw [hp] at h
      dsimp only at h
      rcases hil : internalLookup net with ⟨dOpt, eOpt⟩
      rw [hil] at h
      cases eOpt with
      | some e => simp at h
      | none =>
          cases dOpt with
          | some dd =>
              dsimp only at h
              simp only [Prod.mk.injEq, Option.some_inj] at h
              obtain ⟨⟨hd1, -⟩, hc', -⟩ := h
              subst hc'
              rw [hd1]
              have hdev2 : (clearCachesIfNeeded c d.Ltime).deviceCache.isSome = true := by
                rw [clearCachesIfNeeded_dev_isSome]; exact hdev
              obtain ⟨cache, rest, hsl, hrest⟩ :=
                addToDeviceCache_front (clearCachesIfNeeded c d.Ltime) key d hdev2
              refine ⟨⟨cache, rest, hsl, hrest⟩, ?_, ?_⟩
              · rw [addToDeviceCache_ImportantHeaders, clearCachesIfNeeded_ImportantHeaders]
              · rw [addToDeviceCache_ua, clearCachesIfNeeded_ua_isSome]
          | none => simp at h

theorem doLookup_success_front (md5 : String → String) (c : WmClient) (op : LookupOp)
    (net : Except String JSONDeviceData) (d : JSONDeviceData) (c' : WmClient) (b : Bool)
    (hua : c.userAgentCache.isSome = true) (hdev : c.deviceCache.isSome = true)
    (h : doLookup md5 c op net = ((some d, none), c', b)) :
    (∃ cache rest, opCache c' op = some cache ∧
        cache.entries = (opKeyStr md5 c.ImportantHeaders op, d) :: rest) ∧
    c'.ImportantHeaders = c.ImportantHeaders ∧
    c'.userAgentCache.isSome = true ∧ c'.deviceCache.isSome = true := by
  cases op with
  | byUserAgent ua =>
      obtain ⟨⟨cache, rest, hsl, hrest⟩, hImp, hdevpres⟩ :=
        uaKeyedLookup_success_front c _ net d c' b hua h
      refine ⟨⟨cache, rest, ?_, hrest⟩, hImp, by simp [hsl], by rw [hdevpres]; exact hdev⟩
      simpa [opCache, usesUaCache] using hsl
  | byDeviceID did =>
      obtain ⟨⟨cache, rest, hsl, hrest⟩, hImp, huapres⟩ :=
        devKeyedLookup_success_front c _ net d c' b hdev h
      refine ⟨⟨cache, rest, ?_, hrest⟩, hImp, by rw [huapres]; exact hua, by simp [hsl]⟩
      simpa [opCache, usesUaCache] using hsl
  | byHeaders hs =>
      obtain ⟨⟨cache, rest, hsl, hrest⟩, hImp, hdevpres⟩ :=
        uaKeyedLookup_success_front c _ net d c' b hua h
      refine ⟨⟨cache, rest, ?_, hrest⟩, hImp, by simp [hsl], by rw [hdevpres]; exact hdev⟩
      simpa [opCache, usesUaCache] using hsl

theorem uaKeyedLookup_hit (c : WmClient) (key : String) (net : Except String JSONDeviceData)
    (cache : Lru JSONDeviceData) (d : JSONDeviceData) (rest : List (String × JSONDeviceData))
    (hslot : c.userAgentCache = some cache)
    (hfront : cache.entries = (key, d) :: rest) :
    uaKeyedLookup c key net = ((some d, none), c, false) := by
  have hfind : cache.entries.find? (fun p => p.1 == key) = some (key, d) := by
    rw [hfront]
    simp [List.find?_cons_of_pos]
  have herase : cache.entries.eraseP (fun q => q.1 == key) = rest := by
    rw [hfront]
    simp [List.eraseP_cons_of_pos]
  have hget : lruGet cache key = (some d, cache) := by
    unfold lruGet
    rw [hfind]
    dsimp only
    rw [herase, ← hfront]
  have hprobe : uaCacheProbe c key = some (d, cache) := by
    unfold uaCacheProbe
    rw [hslot]
    dsimp only
    rw [hget]
  unfold uaKeyedLookup
  rw [hprobe]
  dsimp only
  rw [← hslot]

theorem devKeyedLookup_hit (c : WmClient) (key : String) (net : Except String JSONDeviceData)
    (cache : Lru JSONDeviceData) (d : JSONDeviceData) (rest : List (String × JSONDeviceData))
    (hslot : c.deviceCache = some cache)
    (hfront : cache.entries = (key, d) :: rest) :
    devKeyedLookup c key net = ((some d, none), c, false) := by
  have hfind : cache.entries.find? (fun p => p.1 == key) = some (key, d) := by
    rw [hfront]
    simp [List.find?_cons_of_pos]
  have herase : cache.entries.eraseP (fun q => q.1 == key) = rest := by
    rw [hfront]
    simp [List.eraseP_cons_of_pos]
  have hget : lruGet cache key = (some d, cache) := by
    unfold lruGet
    rw [hfind]
    dsimp only
    rw [herase, ← hfront]
  have hprobe : devCacheProbe c key = some (d, cache) := by
    unfold devCacheProbe
    rw [hslot]
    dsimp only
    rw [hget]
  unfold devKeyedLookup
  rw [hprobe]
  dsimp only
  rw [← hslot]

theorem doLookup_hit (md5 : String → String) (c : WmClient) (op : LookupOp)
    (net : Except String JSONDeviceData) (cache : Lru JSONDeviceData) (d : JSONDeviceData)
    (rest : List (String × JSONDeviceData))
    (hslot : opCache c op = some cache)
    (hfront : cache.entries = (opKeyStr md5 c.ImportantHeaders op, d) :: rest) :
    doLookup md5 c op net = ((some d, none), c, false) := by
  cases op with
  | byUserAgent ua =>
      exact uaKeyedLookup_hit c _ net cache d rest
        (by simpa [opCache, usesUaCache] using hslot) hfront
  | byDeviceID did =>
      exact devKeyedLookup_hit c _ net cache d rest
        (by simpa [opCache, usesUaCache] using hslot) hfront
  | byHeaders hs =>
      exact uaKeyedLookup_hit c _ net cache d rest
        (by simpa [opCache, usesUaCache] using hslot) hfront

/-! ## C8: repeated identical lookups are served from the cache -/

/-- C8: on a cache-enabled client, once a lookup has succeeded, every
repeated lookup with the same cache key (same user-agent, same device-id, or
a header map deriving the same fingerprint) is answered from the cache with
no network call (`false` flag), the returned payload is the first result,
and the client state — in particular both cache sizes — is unchanged, for
any number of repetitions. -/
theorem repeatedLookup_idempotent (md5 : String → String) (c : WmClient) (op op' : LookupOp)
    (net net' : Except String JSONDeviceData) (d : JSONDeviceData) (c' : WmClient) (b : Bool)
    (hua : c.userAgentCache.isSome = true) (hdev : c.deviceCache.isSome = true)
    (h : doLookup md5 c op net = ((some d, none), c', b))
    (hkey : opKeyStr md5 c.ImportantHeaders op' = opKeyStr md5 c.ImportantHeaders op)
    (hslot : usesUaCache op' = usesUaCache op) :
    doLookup md5 c' op' net' = ((some d, none), c', false) ∧
    (∀ n, (fun s => (doLookup md5 s op' net').2.1)^[n] c' = c') ∧
    (∀ n, GetActualCacheSizes ((fun s => (doLookup md5 s op' net').2.1)^[n] c')
        = GetActualCacheSizes c') := by
  obtain ⟨⟨cache, rest, hsl, hfront⟩, hImp, hua', hdev'⟩ :=
    doLookup_success_front md5 c op net d c' b hua hdev h
  have hslot' : opCache c' op' = some cache := by
    have : opCache c' op' = opCache c' op := by simp [opCache, hslot]
    rw [this, hsl]
  have hkey' : opKeyStr md5 c'.ImportantHeaders op' = opKeyStr md5 c.ImportantHeaders op := by
    rw [hImp, hkey]
  have hstep : doLookup md5 c' op' net' = ((some d, none), c', false) :=
    doLookup_hit md5 c' op' net' cache d rest hslot' (by rw [hkey']; exact hfront)
  have hiter : ∀ n, (fun s => (doLookup md5 s op' net').2.1)^[n] c' = c' := by
    intro n
    induction n with
    | zero => rfl
    | succ k ih =>
        rw [Function.iterate_succ_apply]
        simpa [hstep] using ih
  exact ⟨hstep, hiter, fun n => by rw [hiter n]⟩

/-- Witness for C8: a concrete device-id lookup served from the cache three
times over, with the state fixed and no network use. -/
theorem repeatedLookup_idempotent_witness :
    doLookup (fun s => s) loadedClient (.byDeviceID "nokia_generic_series40") (.error "down")
      = ((some sampleDevice, none), loadedClient, false) ∧
    ((fun s => (doLookup (fun t => t) s (.byDeviceID "nokia_generic_series40")
        (.error "down")).2.1)^[3] loadedClient) = loadedClient := by
  have h := repeatedLookup_idempotent (fun s => s) loadedClient
    (.byDeviceID "nokia_generic_series40") (.byDeviceID "nokia_generic_series40")
    (.error "boot") (.error "down") sampleDevice loadedClient false
    (by decide) (by decide) (by decide) rfl rfl
  exact ⟨h.1, (h.2.1 3)⟩

/-! ## C10: returned device data always has a blank Error field -/

theorem string_length_zero {s : String} (h : s.length = 0) : s = "" := by
  cases s with
  | mk data =>
      cases data with
      | nil => rfl
      | cons ch tail => simp [String.length] at h

theorem internalLookup_blank (net : Except String JSONDeviceData) (d' : JSONDeviceData)
    (h : (internalLookup net).1 = some d') : d'.Error = "" := by
  cases net with
  | error e => simp [internalLookup] at h
  | ok d =>
      unfold internalLookup at h
      dsimp only at h
      split at h
      · simp only [Option.some_inj] at h
        rw [← h]
      · next hlen =>
          simp only [Option.some_inj] at h
          rw [← h]
          exact string_length_zero (by omega)

theorem lruGet_blank (cache : Lru JSONDeviceData) (key : String)
    (hwf : ∀ p ∈ cache.entries, p.2.Error = "") :
    (∀ v, (lruGet cache key).1 = some v → v.Error = "") ∧
    (∀ p ∈ (lruGet cache key).2.entries, p.2.Error = "") := by
  unfold lruGet
  cases hf : cache.entries.find? (fun p => p.1 == key) with
  | none => exact ⟨by simp, hwf⟩
  | some p =>
      have hp : p ∈ cache.entries := List.mem_of_find?_eq_some hf
      have hpe : p.2.Error = "" := hwf p hp
      constructor
      · intro v hv
        simp only [Option.some_inj] at hv
        rw [← hv]; exact hpe
      · intro q hq
        dsimp only at hq
        rcases List.mem_cons.mp hq with hq | hq
        · rw [hq]; exact hpe
        · exact hwf q ((List.eraseP_sublist _).subset hq)

theorem lruAdd_blank {cache : Lru JSONDeviceData} (key : String) (v : JSONDeviceData)
    (hwf : ∀ p ∈ cache.entries, p.2.Error = "") (hv : v.Error = "") :
    ∀ p ∈ (lruAdd cache key v).entries, p.2.Error = "" := by
  intro q hq
  unfold lruAdd at hq
  split at hq
  · dsimp only at hq
    rcases List.mem_cons.mp hq with hq | hq
    · rw [hq]; exact hv
    · exact hwf q ((List.eraseP_sublist _).subset hq)
  · dsimp only at hq
    split at hq
    · dsimp only at hq
      have hq' : q ∈ (key, v) :: cache.entries := (List.dropLast_sublist _).subset hq
      rcases List.mem_cons.mp hq' with hq' | hq'
      · rw [hq']; exact hv
      · exact hwf q hq'
    · rcases List.mem_cons.mp hq with hq | hq
      · rw [hq]; exact hv
      · exact hwf q hq

theorem cacheWF_clearCache (c : WmClient) : cacheWF (clearCache c) := by
  constructor <;>
  · show lruBlankErrors (clearLru _)
    cases hx : clearLru _ with
    | none => trivial
    | some cache =>
        intro p hp
        rw [clearLru_some_entries _ _ hx] at hp
        simp at hp

theorem cacheWF_clearCachesIfNeeded (c : WmClient) (ltime : String) (h : cacheWF c) :
    cacheWF (clearCachesIfNeeded c ltime) := by
  unfold clearCachesIfNeeded
  split
  · exact cacheWF_clearCache _
  · exact h

theorem cacheWF_addToUaCache (c : WmClient) (key : String) (v : JSONDeviceData)
    (h : cacheWF c) (hv : v.Error = "") : cacheWF (addToUaCache c key v) := by
  obtain ⟨hdev, hua⟩ := h
  unfold addToUaCache
  cases hca : c.userAgentCache with
  | none => exact ⟨hdev, by rw [hca] at hua ⊢; exact hua⟩
  | some cache =>
      refine ⟨hdev, ?_⟩
      rw [hca] at hua
      exact lruAdd_blank key v hua hv

theorem cacheWF_addToDeviceCache (c : WmClient) (key : String) (v : JSONDeviceData)
    (h : cacheWF c) (hv : v.Error = "") : cacheWF (addToDeviceCache c key v) := by
  obtain ⟨hdev, hua⟩ := h
  unfold addToDeviceCache
  cases hca : c.deviceCache with
  | none => exact ⟨by rw [hca] at hdev ⊢; exact hdev, hua⟩
  | some cache =>
      refine ⟨?_, hua⟩
      rw [hca] at hdev
      exact lruAdd_blank key v hdev hv

theorem uaKeyedLookup_blank (c : WmClient) (key : String)
    (net : Except String JSONDeviceData) (hwf : cacheWF c) :
    (∀ d', (uaKeyedLookup c key net).1.1 = some d' → d'.Error = "") ∧
    cacheWF (uaKeyedLookup c key net).2.1 := by
  unfold uaKeyedLookup
  cases hp : uaCacheProbe c key with
  | some pair =>
      obtain ⟨jdd, cache'⟩ := pair
      dsimp only
      obtain ⟨hdev, hua⟩ := hwf
      unfold uaCacheProbe at hp
      cases hca : c.userAgentCache with
      | none => rw [hca] at hp; exact absurd hp (by simp)
      | some cache0 =>
          rw [hca] at hp
          dsimp only at hp
          rw [hca] at hua
          have hbl := lruGet_blank cache0 key hua
          cases hg : lruGet cache0 key with
          | mk v1 cache1 =>
              rw [hg] at hp hbl
              cases v1 with
              | none => simp at hp
              | some v =>
                  dsimp only at hp
                  simp only [Option.some_inj, Prod.mk.injEq] at hp
                  obtain ⟨hj, hc1⟩ := hp
                  constructor
                  · intro d' hd'
                    simp only [Option.some_inj] at hd'
                    rw [← hd', ← hj]
                    exact hbl.1 v rfl
                  · refine ⟨hdev, ?_⟩
                    show lruBlankErrors (some cache')
                    rw [← hc1]
                    exact hbl.2
  | none =>
      dsimp only
      rcases hil : internalLookup net with ⟨dOpt, eOpt⟩
      have hblank : ∀ d', dOpt = some d' → d'.Error = "" := by
        intro d' hd'
        exact internalLookup_blank net d' (by rw [hil, hd'])
      cases eOpt with
      | some e =>
          cases dOpt with
          | some dd =>
              refine ⟨?_, hwf⟩
              intro d' hd'
              have hd2 : some dd = some d' := hd'
              rw [Option.some_inj] at hd2
              rw [← hd2]; exact hblank dd rfl
          | none =>
              refine ⟨?_, hwf⟩
              intro d' hd'
              have hd2 : (none : Option JSONDeviceData) = some d' := hd'
              simp at hd2
      | none =>
          cases dOpt with
          | some dd =>
              have hdd : dd.Error = "" := hblank dd rfl
              refine ⟨?_, ?_⟩
              · intro d' hd'
                have hd2 : some dd = some d' := hd'
                rw [Option.some_inj] at hd2
                rw [← hd2]; exact hdd
              · exact cacheWF_addToUaCache _ key dd
                  (cacheWF_clearCachesIfNeeded c dd.Ltime hwf) hdd
          | none =>
              refine ⟨?_, hwf⟩
              intro d' hd'
              have hd2 : (none : Option JSONDeviceData) = some d' := hd'
              simp at hd2

theorem devKeyedLookup_blank (c : WmClient) (key : String)
    (net : Except String JSONDeviceData) (hwf : cacheWF c) :
    (∀ d', (devKeyedLookup c key net).1.1 = some d' → d'.Error = "") ∧
    cacheWF (devKeyedLookup c key net).2.1 := by
  unfold devKeyedLookup
  cases hp : devCacheProbe c key with
  | some pair =>
      obtain ⟨jdd, cache'⟩ := pair
      dsimp only
      obtain ⟨hdev, hua⟩ := hwf
      unfold devCacheProbe at hp
      cases hca : c.deviceCache with
      | none => rw [hca] at hp; exact absurd hp (by simp)
      | some cache0 =>
          rw [hca] at hp
          dsimp only at hp
          rw [hca] at hdev
          have hbl := lruGet_blank cache0 key hdev
          cases hg : lruGet cache0 key with
          | mk v1 cache1 =>
              rw [hg] at hp hbl
              cases v1 with
              | none => simp at hp
              | some v =>
                  dsimp only at hp
                  simp only [Option.some_inj, Prod.mk.injEq] at hp
                  obtain ⟨hj, hc1⟩ := hp
                  constructor
                  · intro d' hd'
                    simp only [Option.some_inj] at hd'
                    rw [← hd', ← hj]
                    exact hbl.1 v rfl
                  · refine ⟨?_, hua⟩
                    show lruBlankErrors (some cache')
                    rw [← hc1]
                    exact hbl.2
  | none =>
      dsimp only
      rcases hil : internalLookup net with ⟨dOpt, eOpt⟩
      have hblank : ∀ d', dOpt = some d' → d'.Error = "" := by
        intro d' hd'
        exact internalLookup_blank net d' (by rw [hil, hd'])
      cases eOpt with
      | some e =>
          cases dOpt with
          | some dd =>
              refine ⟨?_, hwf⟩
              intro d' hd'
              have hd2 : some dd = some d' := hd'
              rw [Option.some_inj] at hd2
              rw [← hd2]; exact hblank dd rfl
          | none =>
              refine ⟨?_, hwf⟩
              intro d' hd'
              have hd2 : (none : Option JSONDeviceData) = some d' := hd'
              simp at hd2
      | none =>
          cases dOpt with
          | some dd =>
              have hdd : dd.Error = "" := hblank dd rfl
              refine ⟨?_, ?_⟩
              · intro d' hd'
                have hd2 : some dd = some d' := hd'
                rw [Option.some_inj] at hd2
                rw [← hd2]; exact hdd
              · exact cacheWF_addToDeviceCache _ key dd
                  (cacheWF_clearCachesIfNeeded c dd.Ltime hwf) hdd
          | none =>
              refine ⟨?_, hwf⟩
              intro d' hd'
              have hd2 : (none : Option JSONDeviceData) = some d' := hd'
              simp at hd2

/-- C10: `internalLookup` copies a server-embedded error message into the Go
error and blanks the object's `Error` field, so every `JSONDeviceData`
returned by a lookup operation — from the network path, including the
partial object accompanying an application-level error, or from a cache
whose entries were populated by such returns — has an empty `Error` field,
and the caches keep that invariant. -/
theorem lookup_blank_error :
    (∀ (net : Except String JSONDeviceData) (d' : JSONDeviceData),
        (internalLookup net).1 = some d' → d'.Error = "") ∧
    (∀ (d : JSONDeviceData), 0 < d.Error.length →
        (internalLookup (.ok d)).2 = some ("Received error from WM server: " ++ d.Error)) ∧
    (∀ (md5 : String → String) (c : WmClient) (op : LookupOp)
        (net : Except String JSONDeviceData), cacheWF c →
        (∀ d', (doLookup md5 c op net).1.1 = some d' → d'.Error = "") ∧
        cacheWF (doLookup md5 c op net).2.1) := by
  refine ⟨internalLookup_blank, ?_, ?_⟩
  · intro d h
    simp [internalLookup, h]
  · intro md5 c op net hwf
    cases op with
    | byUserAgent ua => exact uaKeyedLookup_blank c _ net hwf
    | byDeviceID did => exact devKeyedLookup_blank c _ net hwf
    | byHeaders hs => exact uaKeyedLookup_blank c _ net hwf

/-- Witness for C10: the object returned alongside a concrete application
error has a blank `Error` field. -/
theorem lookup_blank_error_witness :
    sampleDevice.Error = "" :=
  lookup_blank_error.1 (.ok { sampleDevice with Error := "device not found" }) sampleDevice rfl

/-! ## C2 infrastructure: the fingerprint depends only on the
case-insensitive important-header bindings -/

theorem find?_filter_key {V : Type} (m : List (String × V)) (k k' : String) (hne : k ≠ k') :
    (m.filter (fun p => !(p.1 == k))).find? (fun p => p.1 == k')
      = m.find? (fun p => p.1 == k') := by
  induction m with
  | nil => rfl
  | cons p t ih =>
      by_cases hp : p.1 = k
      · have hnk : ¬(p.1 = k') := by rw [hp]; exact hne
        simp only [List.filter_cons, hp, beq_self_eq_true, Bool.not_true, Bool.false_eq_true,
          if_false, ih]
        rw [List.find?_cons_of_neg]
        simp [hnk]
      · simp only [List.filter_cons, beq_iff_eq, hp, not_false_eq_true, Bool.not_eq_true',
          beq_eq_false_iff_ne, ne_eq, if_true]
        by_cases hp' : p.1 = k'
        · rw [List.find?_cons_of_pos, List.find?_cons_of_pos] <;> simp [hp']
        · rw [List.find?_cons_of_neg, List.find?_cons_of_neg, ih] <;> simp [hp']

theorem mapGet?_mapSet {V : Type} (m : List (String × V)) (k : String) (v : V) (k' : String) :
    mapGet? (mapSet m k v) k' = if k = k' then some v else mapGet? m k' := by
  unfold mapGet? mapSet
  by_cases h : k = k'
  · subst h
    rw [List.find?_cons_of_pos _ (by simp)]
    simp
  · rw [List.find?_cons_of_neg _ (by simp [h])]
    rw [find?_filter_key m k k' h]
    simp [h]

theorem lowerKeyMap_append (headers : List (String × String)) (kv : String × String) :
    lowerKeyMap (headers ++ [kv]) = mapSet (lowerKeyMap headers) (toLowerStr kv.1) kv.2 := by
  unfold lowerKeyMap
  rw [List.foldl_append]
  rfl

theorem mapGet?_lowerKeyMap (headers : List (String × String)) (k : String) :
    mapGet? (lowerKeyMap headers) k = lastLook headers k := by
  induction headers using List.reverseRecOn with
  | nil => rfl
  | append_singleton t p ih =>
      rw [lowerKeyMap_append, mapGet?_mapSet]
      unfold lastLook
      rw [List.reverse_append]
      simp only [List.reverse_singleton, List.singleton_append]
      by_cases hp : toLowerStr p.1 = k
      · rw [List.find?_cons_of_pos _ (by simp [hp])]
        simp [hp]
      · rw [List.find?_cons_of_neg _ (by simp [hp])]
        rw [if_neg hp, ih]
        rfl

theorem or_map_congr {A B : Type} (f : A → B) (oa ob la lb : Option A)
    (h1 : oa.map f = ob.map f) (h2 : la.map f = lb.map f) :
    (oa.or la).map f = (ob.or lb).map f := by
  cases oa with
  | none =>
      have hB : ob = none := by
        cases ob with
        | none => rfl
        | some b => simp at h1
      rw [hB]
      simpa using h2
  | some a =>
      cases ob with
      | none => simp at h1
      | some b => simpa using h1

theorem lastLook_eq_relevant (imp : List String) (headers : List (String × String)) (k : String)
    (hk : k ∈ lowImp imp) :
    lastLook headers k
      = ((relevantEntries imp headers).reverse.find? (fun p => p.1 == k)).map
          (fun p => p.2) := by
  induction headers with
  | nil => rfl
  | cons p t ih =>
      unfold lastLook at ih ⊢
      unfold relevantEntries at ih ⊢
      rw [List.reverse_cons, List.find?_append]
      by_cases hP : toLowerStr p.1 ∈ lowImp imp
      · rw [List.filter_cons_of_pos (by simp [hP])]
        simp only [List.map_cons, List.reverse_cons, List.find?_append]
        apply or_map_congr _ _ _ _ _ ih
        by_cases hpk : toLowerStr p.1 = k
        · simp [List.find?_cons, hpk]
        · simp [List.find?_cons, hpk]
      · have hpk : toLowerStr p.1 ≠ k := fun h => hP (h ▸ hk)
        rw [List.filter_cons_of_neg (by simp [hP])]
        have hLa : ([p].find? fun q => toLowerStr q.1 == k) = none := by
          simp [List.find?_cons, hpk]
        rw [hLa, ← ih]
        cases (t.reverse.find? fun q => toLowerStr q.1 == k) <;> rfl

theorem nodup_keys_val {V : Type} (l : List (String × V)) (hn : (l.map Prod.fst).Nodup)
    (k : String) (v v' : V) (h1 : (k, v) ∈ l) (h2 : (k, v') ∈ l) : v = v' := by
  induction l with
  | nil => simp at h1
  | cons p t ih =>
      rw [List.map_cons, List.nodup_cons] at hn
      rcases List.mem_cons.mp h1 with h1 | h1 <;> rcases List.mem_cons.mp h2 with h2 | h2
      · exact (Prod.ext_iff.mp (h1.trans h2.symm)).2
      · exfalso
        apply hn.1
        rw [← h1]
        show k ∈ t.map Prod.fst
        exact List.mem_map_of_mem Prod.fst h2
      · exfalso
        apply hn.1
        rw [← h2]
        show k ∈ t.map Prod.fst
        exact List.mem_map_of_mem Prod.fst h1
      · exact ih hn.2 h1 h2

theorem relevantLookup_perm (l₁ l₂ : List (String × String)) (k : String)
    (hn2 : (l₂.map Prod.fst).Nodup) (hp : List.Perm l₁ l₂) :
    (l₁.reverse.find? (fun p => p.1 == k)).map (fun p => p.2)
      = (l₂.reverse.find? (fun p => p.1 == k)).map (fun p => p.2) := by
  cases e1 : l₁.reverse.find? (fun p => p.1 == k) with
  | none =>
      have hno : ∀ x ∈ l₂.reverse, ¬((fun p => (p.1 == k)) x = true) := by
        intro x hx
        have hx1 : x ∈ l₁ := hp.mem_iff.mpr (List.mem_reverse.mp hx)
        exact List.find?_eq_none.mp e1 x (List.mem_reverse.mpr hx1)
      rw [List.find?_eq_none.mpr hno]
  | some p =>
      have hpk : p.1 = k := by
        have := List.find?_some e1
        simpa using this
      have hpmem : p ∈ l₂ := hp.mem_iff.mp (List.mem_reverse.mp (List.mem_of_find?_eq_some e1))
      cases e2 : l₂.reverse.find? (fun p => p.1 == k) with
      | none =>
          exact absurd (by simpa using hpk)
            (List.find?_eq_none.mp e2 p (List.mem_reverse.mpr hpmem))
      | some q =>
          have hqk : q.1 = k := by
            have := List.find?_some e2
            simpa using this
          have hqmem : q ∈ l₂ := List.mem_reverse.mp (List.mem_of_find?_eq_some e2)
          have hp' : (k, p.2) ∈ l₂ := by rw [← hpk]; exact hpmem
          have hq' : (k, q.2) ∈ l₂ := by rw [← hqk]; exact hqmem
          have : p.2 = q.2 := nodup_keys_val l₂ hn2 k p.2 q.2 hp' hq'
          simp [this]

theorem ciGet_eq_of_perm (imp : List String) (h1 h2 : List (String × String)) (n : String)
    (hn : n ∈ imp)
    (hn2 : ((relevantEntries imp h2).map Prod.fst).Nodup)
    (hperm : List.Perm (relevantEntries imp h1) (relevantEntries imp h2)) :
    ciGet h1 n = ciGet h2 n := by
  unfold ciGet mapGetD
  have hk : toLowerStr n ∈ lowImp imp := List.mem_map_of_mem toLowerStr hn
  rw [mapGet?_lowerKeyMap, mapGet?_lowerKeyMap,
    lastLook_eq_relevant imp h1 _ hk, lastLook_eq_relevant imp h2 _ hk,
    relevantLookup_perm _ _ _ hn2 hperm]

theorem norm_fold_get (headers : List (String × String)) :
    ∀ (todo procd : List String) (acc : List (String × String)),
    (∀ m, mapGetD acc m "" = if m ∈ procd then ciGet headers m else "") →
    ∀ m, mapGetD (todo.foldl (fun jh name =>
        let h := ciGet headers name
        if h ≠ "" then mapSet jh name h else jh) acc) m ""
      = if m ∈ procd ++ todo then ciGet headers m else "" := by
  intro todo
  induction todo with
  | nil =>
      intro procd acc hacc m
      simpa using hacc m
  | cons nm rest ih =>
      intro procd acc hacc m
      rw [List.foldl_cons]
      have hstep : ∀ m', mapGetD
          (let h := ciGet headers nm
           if h ≠ "" then mapSet acc nm h else acc) m' ""
          = if m' ∈ procd ++ [nm] then ciGet headers m' else "" := by
        intro m'
        dsimp only
        by_cases hnm : ciGet headers nm ≠ ""
        · rw [if_pos hnm]
          unfold mapGetD
          rw [mapGet?_mapSet]
          by_cases he : nm = m'
          · subst he
            simp
          · rw [if_neg he]
            have hthis := hacc m'
            unfold mapGetD at hthis
            rw [hthis]
            by_cases hm : m' ∈ procd
            · rw [if_pos hm, if_pos (List.mem_append.mpr (Or.inl hm))]
            · have hnotmem : m' ∉ procd ++ [nm] := by
                intro hc
                rcases List.mem_append.mp hc with hc | hc
                · exact hm hc
                · exact he (List.mem_singleton.mp hc).symm
              rw [if_neg hm, if_neg hnotmem]
        · rw [if_neg hnm]
          push_neg at hnm
          rw [hacc m']
          by_cases hm : m' ∈ procd
          · simp [hm]
          · rw [if_neg hm]
            by_cases he : m' = nm
            · subst he
              rw [if_pos (by simp), hnm]
            · have hnotmem : m' ∉ procd ++ [nm] := by
                intro hc
                rcases List.mem_append.mp hc with hc | hc
                · exact hm hc
                · exact he (List.mem_singleton.mp hc)
              rw [if_neg hnotmem]
      have := ih (procd ++ [nm]) _ hstep m
      rw [this]
      have : procd ++ [nm] ++ rest = procd ++ nm :: rest := by simp
      rw [this]

theorem norm_get (imp : List String) (headers : List (String × String)) (n : String)
    (hn : n ∈ imp) :
    mapGetD (lookupHeadersNorm imp headers) n "" = ciGet headers n := by
  have h0 : ∀ m, mapGetD ([] : List (String × String)) m ""
      = if m ∈ ([] : List String) then ciGet headers m else "" := by
    intro m
    simp [mapGetD, mapGet?]
  have := norm_fold_get headers imp [] [] h0 n
  unfold lookupHeadersNorm
  rw [this]
  simp [hn]

theorem foldl_concat_congr (imp : List String) (f g : String → String)
    (h : ∀ n ∈ imp, f n = g n) :
    ∀ a : String, imp.foldl (fun key hname => key ++ f hname) a
      = imp.foldl (fun key hname => key ++ g hname) a := by
  induction imp with
  | nil => intro a; rfl
  | cons nm rest ih =>
      intro a
      rw [List.foldl_cons, List.foldl_cons, h nm (by simp)]
      exact ih (fun n hn => h n (by simp [hn])) _

/-! ## C2: the header fingerprint is casing-, order- and
extra-header-invariant -/

/-- C2: two header maps that differ only in the casing of their header-name
keys, in the order of their entries, or in extra headers that are not
important headers, have the same `relevantEntries` (their
important-relevant bindings keyed by lowercased name) up to permutation;
for all such maps — with the lowercased relevant names duplicate-free, as
any deterministic Go header map is — the cache key derived by
`LookupHeaders`' normalization followed by `getUserAgentCacheKey` is
identical, for every digest function `md5`. -/
theorem headersCacheKey_invariant (md5 : String → String) (imp : List String)
    (h1 h2 : List (String × String))
    (hn1 : ((relevantEntries imp h1).map Prod.fst).Nodup)
    (hn2 : ((relevantEntries imp h2).map Prod.fst).Nodup)
    (hperm : List.Perm (relevantEntries imp h1) (relevantEntries imp h2)) :
    headersCacheKey md5 imp h1 = headersCacheKey md5 imp h2 := by
  unfold headersCacheKey getUserAgentCacheKey
  congr 1
  have e1 : imp.foldl (fun key hname => key ++ mapGetD (lookupHeadersNorm imp h1) hname "") ""
      = imp.foldl (fun key hname => key ++ ciGet h1 hname) "" :=
    foldl_concat_congr imp _ _ (fun n hn => norm_get imp h1 n hn) ""
  have e2 : imp.foldl (fun key hname => key ++ mapGetD (lookupHeadersNorm imp h2) hname "") ""
      = imp.foldl (fun key hname => key ++ ciGet h2 hname) "" :=
    foldl_concat_congr imp _ _ (fun n hn => norm_get imp h2 n hn) ""
  have emid : imp.foldl (fun key hname => key ++ ciGet h1 hname) ""
      = imp.foldl (fun key hname => key ++ ciGet h2 hname) "" :=
    foldl_concat_congr imp _ _ (fun n hn => ciGet_eq_of_perm imp h1 h2 n hn hn2 hperm) ""
  rw [e1, emid, ← e2]

/-- Witness for C2: concrete header maps differing in casing, order and an
extra non-important header give the same fingerprint. -/
theorem headersCacheKey_invariant_witness :
    headersCacheKey (fun s => s) ["User-Agent", "X-UCBrowser-Device-UA"]
        [("USER-agent", "ua1"), ("Accept", "xml")]
      = headersCacheKey (fun s => s) ["User-Agent", "X-UCBrowser-Device-UA"]
        [("Other", "zzz"), ("user-agent", "ua1")] := by
  exact headersCacheKey_invariant (fun s => s) ["User-Agent", "X-UCBrowser-Device-UA"]
    [("USER-agent", "ua1"), ("Accept", "xml")] [("Other", "zzz"), ("user-agent", "ua1")]
    (by decide) (by decide) (by decide)

end Wmclient
